import Mathlib

/-!
Verification of the dudu-proxy connection-admission core against its design
specification.

The Go sources are shallowly embedded: Go maps keyed by IP strings become
association lists (`List (String × α)`, unique keys by construction in every
reachable state, mirroring Go map-key uniqueness), `time.Time` and
`time.Duration` become `Int` (an instant on an absolute scale and a length in
the same unit), and every method that reads the clock takes the current
instant `now` as an explicit argument.  Stateful methods return the updated
record instead of mutating in place.
-/

namespace DuduProxy

/-! ## Association-list model of Go maps -/

/-- Lookup in an association list: `m[k]` (the `, ok` form of a Go map read). -/
def lookupA {α : Type} : List (String × α) → String → Option α
  | [], _ => none
  | (k, v) :: rest, key => if k = key then some v else lookupA rest key

/-- Go map write `m[k] = v`: replace in place if the key is present, else append. -/
def insertA {α : Type} : List (String × α) → String → α → List (String × α)
  | [], key, v => [(key, v)]
  | (k, w) :: rest, key, v =>
    if k = key then (k, v) :: rest else (k, w) :: insertA rest key v

/-- Go `delete(m, k)`. -/
def eraseA {α : Type} : List (String × α) → String → List (String × α)
  | [], _ => []
  | (k, w) :: rest, key =>
    if k = key then eraseA rest key else (k, w) :: eraseA rest key

theorem lookupA_insertA_self {α : Type} (m : List (String × α)) (k : String) (v : α) :
    lookupA (insertA m k v) k = some v := by
  induction m with
  | nil => simp [insertA, lookupA]
  | cons hd tl ih =>
    obtain ⟨k0, v0⟩ := hd
    by_cases h : k0 = k <;> simp [insertA, lookupA, h, ih]

theorem lookupA_insertA_ne {α : Type} (m : List (String × α)) (k k1 : String) (v : α)
    (h : k ≠ k1) : lookupA (insertA m k v) k1 = lookupA m k1 := by
  induction m with
  | nil => simp [insertA, lookupA, h]
  | cons hd tl ih =>
    obtain ⟨k0, v0⟩ := hd
    by_cases h0 : k0 = k
    · subst h0
      simp [insertA, lookupA, h]
    · simp [insertA, lookupA, h0, ih]

theorem lookupA_eraseA_self {α : Type} (m : List (String × α)) (k : String) :
    lookupA (eraseA m k) k = none := by
  induction m with
  | nil => simp [eraseA, lookupA]
  | cons hd tl ih =>
    obtain ⟨k0, v0⟩ := hd
    by_cases h : k0 = k <;> simp [eraseA, lookupA, h, ih]

theorem lookupA_eraseA_ne {α : Type} (m : List (String × α)) (k k1 : String)
    (h : k ≠ k1) : lookupA (eraseA m k) k1 = lookupA m k1 := by
  induction m with
  | nil => simp [eraseA, lookupA]
  | cons hd tl ih =>
    obtain ⟨k0, v0⟩ := hd
    by_cases h0 : k0 = k
    · subst h0
      simp [eraseA, lookupA, h, ih]
    · by_cases h1 : k0 = k1 <;> simp [eraseA, lookupA, h0, h1, Ne.symm h, ih]

/-! ## IP ban manager (`internal/manager/ipban.go`) -/

/-- A single persisted ban record (`BanRecord` in `ipban.go`).  The Go zero
`time.Time` used for never-banned records is modelled as the instant `0`
(`IsZero` becomes `= 0`). -/
structure BanRecord where
  ip : String
  bannedAt : Int
  expiresAt : Int
  failCount : Nat
deriving Repr, DecidableEq

/-- `IPBanManager` state (`internal/manager/ipban.go`).  The mutex, cleanup
ticker, channel and persistence path are concurrency/IO plumbing with no
bearing on the claims and are omitted; everything else is carried verbatim. -/
structure IPBanManager where
  bannedIPs : List (String × Int)
  bannedFailCount : List (String × Nat)
  failureCounts : List (String × Nat)
  maxFailures : Nat
  banDuration : Int
  whitelist : List String
deriving Repr, DecidableEq

namespace IPBanManager

/-- `NewIPBanManager` before `loadFromFile` runs: empty maps.  (`loadFromFile`
is modelled separately; a fresh manager with no persisted state has exactly
these maps.) -/
def new (maxFailures : Nat) (banDuration : Int) (whitelist : List String) :
    IPBanManager :=
  { bannedIPs := []
    bannedFailCount := []
    failureCounts := []
    maxFailures := maxFailures
    banDuration := banDuration
    whitelist := whitelist }

/-- `IsBanned`: whitelisted IPs are never banned; otherwise banned iff the
expiry entry exists and `time.Now().After(expiry)` is false. -/
def IsBanned (m : IPBanManager) (ip : String) (now : Int) : Bool :=
  if m.whitelist.contains ip then false
  else
    match lookupA m.bannedIPs ip with
    | none => false
    | some expiry => if now > expiry then false else true

/-- `RecordFailure`: no-op for whitelisted IPs; otherwise increment the
failure count and, at `maxFailures`, move the IP into the ban maps. -/
def RecordFailure (m : IPBanManager) (ip : String) (now : Int) : IPBanManager :=
  if m.whitelist.contains ip then m
  else
    let c := (lookupA m.failureCounts ip).getD 0 + 1
    if c ≥ m.maxFailures then
      { m with
        bannedFailCount := insertA m.bannedFailCount ip c
        bannedIPs := insertA m.bannedIPs ip (now + m.banDuration)
        failureCounts := eraseA (insertA m.failureCounts ip c) ip }
    else
      { m with failureCounts := insertA m.failureCounts ip c }

/-- `RecordSuccess`: reset the failure count. -/
def RecordSuccess (m : IPBanManager) (ip : String) : IPBanManager :=
  { m with failureCounts := eraseA m.failureCounts ip }

/-- `UnbanIP`: remove the IP from all three maps. -/
def UnbanIP (m : IPBanManager) (ip : String) : IPBanManager :=
  { m with
    bannedIPs := eraseA m.bannedIPs ip
    bannedFailCount := eraseA m.bannedFailCount ip
    failureCounts := eraseA m.failureCounts ip }

/-- `GetBannedIPs`: IPs whose expiry is strictly in the future. -/
def GetBannedIPs (m : IPBanManager) (now : Int) : List String :=
  (m.bannedIPs.filter (fun p => now < p.2)).map (fun p => p.1)

/-- `GetFailureCount` (Go map read defaults to 0). -/
def GetFailureCount (m : IPBanManager) (ip : String) : Nat :=
  (lookupA m.failureCounts ip).getD 0

/-- The record `saveToFile` emits for a non-expired ban entry (`BannedAt` is
reconstructed as `expiry - banDuration`; the fail count comes from
`bannedFailCount`, defaulting to 0 like the Go map read). -/
def banRecOf (m : IPBanManager) (p : String × Int) : BanRecord :=
  { ip := p.1
    expiresAt := p.2
    bannedAt := p.2 - m.banDuration
    failCount := (lookupA m.bannedFailCount p.1).getD 0 }

/-- The record `saveToFile` emits for a pending failure count (zero times). -/
def failRecOf (p : String × Nat) : BanRecord :=
  { ip := p.1, bannedAt := 0, expiresAt := 0, failCount := p.2 }

/-- `saveToFile`, up to serialization: the list of records written to
`data/ipban.json`.  First the non-expired bans (each with the fail count that
triggered it, when recorded), then the positive failure counts whose IP has no
record yet (the `found` scan).  Go iterates its maps in unspecified order; the
model iterates the association lists in their list order, one admissible
order. -/
def saveRecords (m : IPBanManager) (now : Int) : List BanRecord :=
  let banRecords :=
    m.bannedIPs.foldl
      (fun recs (p : String × Int) =>
        if now < p.2 then recs ++ [banRecOf m p] else recs)
      []
  m.failureCounts.foldl
    (fun recs (p : String × Nat) =>
      let found := recs.any (fun r => r.ip = p.1)
      if !found ∧ p.2 > 0 then recs ++ [failRecOf p] else recs)
    banRecords

/-- One step of `loadFromFile`: a record with a non-zero, still-future expiry
restores the ban (and its fail count when positive); otherwise a positive
fail count restores only the failure counter. -/
def loadRecord (now : Int) (m : IPBanManager) (r : BanRecord) : IPBanManager :=
  if r.expiresAt ≠ 0 ∧ now < r.expiresAt then
    let m1 := { m with bannedIPs := insertA m.bannedIPs r.ip r.expiresAt }
    if r.failCount > 0 then
      { m1 with bannedFailCount := insertA m1.bannedFailCount r.ip r.failCount }
    else m1
  else if r.failCount > 0 then
    { m with failureCounts := insertA m.failureCounts r.ip r.failCount }
  else m

/-- `loadFromFile`, after deserialization, applied to a freshly constructed
manager. -/
def loadRecords (maxFailures : Nat) (banDuration : Int) (whitelist : List String)
    (records : List BanRecord) (now : Int) : IPBanManager :=
  records.foldl (loadRecord now) (IPBanManager.new maxFailures banDuration whitelist)

/-- Save-then-load into a fresh tracker with the same configuration. -/
def roundTrip (m : IPBanManager) (t1 t2 : Int) : IPBanManager :=
  loadRecords m.maxFailures m.banDuration m.whitelist (m.saveRecords t1) t2

end IPBanManager

/-! ## Circuit breaker (`internal/manager/breaker.go`) -/

/-- `CircuitBreakerState` constants. -/
inductive CircuitBreakerState where
  | StateClosed
  | StateOpen
  | StateHalfOpen
deriving Repr, DecidableEq

/-- One entry of the sliding window (`requestRecord`). -/
structure requestRecord where
  timestamp : Int
  success : Bool
deriving Repr, DecidableEq

/-- `CircuitBreaker` state.  `failureThreshold` is a `float64` holding the
whole percentage from the integer config field; it is kept as that integer
and `shouldOpen` uses the cross-multiplied comparison, which agrees with the
float comparison (see `shouldOpen`). -/
structure CircuitBreaker where
  state : CircuitBreakerState
  failureThreshold : Nat
  windowSize : Int
  minRequests : Nat
  breakDuration : Int
  requests : List requestRecord
  lastStateChange : Int
  consecutiveSuccesses : Nat
  halfOpenMaxRequests : Nat
deriving Repr, DecidableEq

namespace CircuitBreaker

/-- `NewCircuitBreaker` (`now` is the construction instant). -/
def new (failureThresholdPercent : Nat) (windowSize : Int) (minRequests : Nat)
    (breakDuration : Int) (now : Int) : CircuitBreaker :=
  { state := CircuitBreakerState.StateClosed
    failureThreshold := failureThresholdPercent
    windowSize := windowSize
    minRequests := minRequests
    breakDuration := breakDuration
    requests := []
    lastStateChange := now
    consecutiveSuccesses := 0
    halfOpenMaxRequests := 3 }

/-- `IsOpen`: true only while in Open and `break_duration` has not elapsed. -/
def IsOpen (cb : CircuitBreaker) (now : Int) : Bool :=
  if cb.state = CircuitBreakerState.StateOpen then
    if now - cb.lastStateChange ≥ cb.breakDuration then false else true
  else false

/-- `GetState`: reports HalfOpen once `break_duration` has elapsed in Open,
without mutating the stored state. -/
def GetState (cb : CircuitBreaker) (now : Int) : CircuitBreakerState :=
  if cb.state = CircuitBreakerState.StateOpen ∧
      now - cb.lastStateChange ≥ cb.breakDuration then
    CircuitBreakerState.StateHalfOpen
  else cb.state

/-- `cleanup`: drop records at or before `now - windowSize`
(`timestamp.After(cutoff)` keeps strictly later records). -/
def cleanup (cb : CircuitBreaker) (now : Int) : CircuitBreaker :=
  { cb with requests := cb.requests.filter (fun r => r.timestamp > now - cb.windowSize) }

/-- `shouldOpen`: only from Closed, with at least `minRequests` records and a
failure percentage at or above the threshold.  The Go comparison is
`float64(failures) * 100.0 / float64(total) ≥ threshold`; since both
`failures * 100` and `threshold * total` are exact integers far below 2^53
and differ by at least 1 when they differ at all, the cross-multiplied
integer comparison used here agrees with it whenever `total > 0` (and
`total ≥ minRequests ≥ 1` for every configuration `config.Validate`
accepts). -/
def shouldOpen (cb : CircuitBreaker) : Bool :=
  if cb.state ≠ CircuitBreakerState.StateClosed then false
  else if cb.requests.length < cb.minRequests then false
  else
    let failures := (cb.requests.filter (fun r => !r.success)).length
    if failures * 100 ≥ cb.failureThreshold * cb.requests.length then true else false

/-- `RecordSuccess`: append a success record; the half-open counter advances
only when the STORED state field is HalfOpen. -/
def RecordSuccess (cb : CircuitBreaker) (now : Int) : CircuitBreaker :=
  let cb1 := { cb with requests := cb.requests ++ [⟨now, true⟩] }
  let cb2 :=
    if cb1.state = CircuitBreakerState.StateHalfOpen then
      let cbi := { cb1 with consecutiveSuccesses := cb1.consecutiveSuccesses + 1 }
      if cbi.consecutiveSuccesses ≥ cbi.halfOpenMaxRequests then
        { cbi with
          state := CircuitBreakerState.StateClosed
          lastStateChange := now
          consecutiveSuccesses := 0 }
      else cbi
    else cb1
  cleanup cb2 now

/-- `RecordFailure`: append a failure record; the immediate HalfOpen→Open
reversion fires only when the STORED state field is HalfOpen, otherwise the
Closed-state threshold check runs. -/
def RecordFailure (cb : CircuitBreaker) (now : Int) : CircuitBreaker :=
  let cb1 := { cb with requests := cb.requests ++ [⟨now, false⟩] }
  if cb1.state = CircuitBreakerState.StateHalfOpen then
    cleanup
      { cb1 with
        state := CircuitBreakerState.StateOpen
        lastStateChange := now
        consecutiveSuccesses := 0 } now
  else
    let cb2 := cleanup cb1 now
    if shouldOpen cb2 then
      { cb2 with state := CircuitBreakerState.StateOpen, lastStateChange := now }
    else cb2

/-- `Call`: the gating wrapper.  `fnFails` abstracts whether `fn()` returned an
error; the first component of the result is true when `Call` returns an error.
This is the only method that commits the stored Open→HalfOpen transition. -/
def Call (cb : CircuitBreaker) (now : Int) (fnFails : Bool) : Bool × CircuitBreaker :=
  let currentState := GetState cb now
  if currentState = CircuitBreakerState.StateOpen then (true, cb)
  else
    let cb1 :=
      if currentState = CircuitBreakerState.StateHalfOpen then
        if cb.state = CircuitBreakerState.StateOpen ∧
            now - cb.lastStateChange ≥ cb.breakDuration then
          { cb with state := CircuitBreakerState.StateHalfOpen, lastStateChange := now }
        else cb
      else cb
    if fnFails then (true, RecordFailure cb1 now) else (false, RecordSuccess cb1 now)

end CircuitBreaker

/-! ## Middleware (`internal/middleware/`) -/

/-- `AuthMiddleware` (`auth.go`): enabled flag plus the credential table. -/
structure AuthMiddleware where
  enabled : Bool
  credentials : List (String × String)
deriving Repr, DecidableEq

namespace AuthMiddleware

/-- `Authenticate`: disabled means open proxy; otherwise exact match. -/
def Authenticate (a : AuthMiddleware) (username password : String) : Bool :=
  if !a.enabled then true
  else
    match lookupA a.credentials username with
    | none => false
    | some expected => expected = password

/-- `IsEnabled`. -/
def IsEnabled (a : AuthMiddleware) : Bool := a.enabled

end AuthMiddleware

/-- `CircuitBreakerMiddleware` (`middleware/breaker.go`). -/
structure CircuitBreakerMiddleware where
  enabled : Bool
  breaker : CircuitBreaker
deriving Repr, DecidableEq

namespace CircuitBreakerMiddleware

/-- `IsOpen`: false when disabled. -/
def IsOpen (c : CircuitBreakerMiddleware) (now : Int) : Bool :=
  if !c.enabled then false else c.breaker.IsOpen now

/-- `GetState`: Closed when disabled. -/
def GetState (c : CircuitBreakerMiddleware) (now : Int) : CircuitBreakerState :=
  if !c.enabled then CircuitBreakerState.StateClosed else c.breaker.GetState now

/-- `RecordAuthFailure`. -/
def RecordAuthFailure (c : CircuitBreakerMiddleware) (now : Int) : CircuitBreakerMiddleware :=
  if !c.enabled then c else { c with breaker := c.breaker.RecordFailure now }

/-- `RecordAuthSuccess`. -/
def RecordAuthSuccess (c : CircuitBreakerMiddleware) (now : Int) : CircuitBreakerMiddleware :=
  if !c.enabled then c else { c with breaker := c.breaker.RecordSuccess now }

end CircuitBreakerMiddleware

/-- `IPBanMiddleware` (`middleware/ipban` wrapper in `middleware/`). -/
structure IPBanMiddleware where
  enabled : Bool
  manager : IPBanManager
deriving Repr, DecidableEq

namespace IPBanMiddleware

/-- `IsBlocked`: false when disabled. -/
def IsBlocked (i : IPBanMiddleware) (ip : String) (now : Int) : Bool :=
  if !i.enabled then false else i.manager.IsBanned ip now

/-- `RecordAuthFailure`. -/
def RecordAuthFailure (i : IPBanMiddleware) (ip : String) (now : Int) : IPBanMiddleware :=
  if !i.enabled then i else { i with manager := i.manager.RecordFailure ip now }

/-- `RecordAuthSuccess`. -/
def RecordAuthSuccess (i : IPBanMiddleware) (ip : String) : IPBanMiddleware :=
  if !i.enabled then i else { i with manager := i.manager.RecordSuccess ip }

end IPBanMiddleware

/-! ## Rate limiter (`internal/middleware/ratelimit.go`)

The buckets are `golang.org/x/time/rate` limiters.  The claims concern a burst
of calls at one instant, so a limiter is modelled at a fixed instant: it is
created full (`tokens = burst`) and each `Allow` consumes one token while any
remain.  (The library refills at `limit` tokens per second between instants;
no claim depends on refill.) -/

/-- Instantaneous model of `rate.Limiter`. -/
structure Limiter where
  limit : Nat
  burst : Nat
  tokens : Nat
deriving Repr, DecidableEq

/-- `rate.NewLimiter`: the bucket starts full. -/
def Limiter.new (limit burst : Nat) : Limiter := ⟨limit, burst, burst⟩

/-- `rate.Limiter.Allow` at a fixed instant: consume one token if available. -/
def Limiter.allowOne (l : Limiter) : Bool × Limiter :=
  if l.tokens > 0 then (true, { l with tokens := l.tokens - 1 }) else (false, l)

/-- `RateLimitMiddleware` state. -/
structure RateLimitMiddleware where
  enabled : Bool
  globalLimiter : Option Limiter
  perIPLimiters : List (String × Limiter)
  perIPLimit : Nat
  perIPBurst : Nat
deriving Repr, DecidableEq

namespace RateLimitMiddleware

/-- `NewRateLimitMiddleware`: the global bucket exists only when enabled with a
positive global rate; per-IP buckets get burst `perIPRPS * 2`. -/
def new (enabled : Bool) (globalRPS perIPRPS : Nat) : RateLimitMiddleware :=
  { enabled := enabled
    globalLimiter :=
      if enabled ∧ globalRPS > 0 then some (Limiter.new globalRPS (globalRPS * 2))
      else none
    perIPLimiters := []
    perIPLimit := perIPRPS
    perIPBurst := perIPRPS * 2 }

/-- `getIPLimiter`: return the existing bucket or lazily create one with
`(perIPLimit, perIPBurst)`. -/
def getIPLimiter (r : RateLimitMiddleware) (ip : String) :
    Limiter × RateLimitMiddleware :=
  match lookupA r.perIPLimiters ip with
  | some l => (l, r)
  | none =>
    let l := Limiter.new r.perIPLimit r.perIPBurst
    (l, { r with perIPLimiters := insertA r.perIPLimiters ip l })

/-- `Allow`: disabled → true; global bucket first (its failure short-circuits
before the per-IP bucket is consulted); otherwise the per-IP bucket decides.
The bucket consumed through the Go pointer is written back into the map. -/
def Allow (r : RateLimitMiddleware) (ip : String) : Bool × RateLimitMiddleware :=
  if !r.enabled then (true, r)
  else
    let globalStep : Bool × RateLimitMiddleware :=
      match r.globalLimiter with
      | none => (true, r)
      | some g =>
        let (ok, g1) := g.allowOne
        (ok, { r with globalLimiter := some g1 })
    let gok := globalStep.1
    let r1 := globalStep.2
    if !gok then (false, r1)
    else
      let lim := (r1.getIPLimiter ip).1
      let r2 := (r1.getIPLimiter ip).2
      let okl := lim.allowOne
      (okl.1, { r2 with perIPLimiters := insertA r2.perIPLimiters ip okl.2 })

/-- `IsEnabled`. -/
def IsEnabled (r : RateLimitMiddleware) : Bool := r.enabled

end RateLimitMiddleware

/-! ## Byte-stream and string helpers shared by the two frontends -/

/-- `io.ReadFull(conn, buf)` over a modelled input stream: take exactly `n`
bytes or fail. -/
def readFull (n : Nat) (input : List Nat) : Option (List Nat × List Nat) :=
  if n ≤ input.length then some (input.take n, input.drop n) else none

/-- Go `string(bytes)` viewed byte-by-byte. -/
def bytesToString (bs : List Nat) : String := String.mk (bs.map Char.ofNat)

/-- `net.JoinHostPort`: bracket-wrap hosts containing a colon (the colon test
is written over the character list so it evaluates by kernel reduction). -/
def joinHostPort (host port : String) : String :=
  if host.data.contains ':' then "[" ++ host ++ "]:" ++ port else host ++ ":" ++ port

/-- Base64 value of one standard-alphabet character
(`encoding/base64.StdEncoding`). -/
def b64CharVal (c : Char) : Option Nat :=
  if 'A' ≤ c ∧ c ≤ 'Z' then some (c.toNat - 65)
  else if 'a' ≤ c ∧ c ≤ 'z' then some (c.toNat - 97 + 26)
  else if '0' ≤ c ∧ c ≤ '9' then some (c.toNat - 48 + 52)
  else if c = '+' then some 62
  else if c = '/' then some 63
  else none

/-- Standard base64 decoding of 4-character groups: padded input, padding only
in the final group, any other shape or character is an error (the behaviour of
`base64.StdEncoding.DecodeString` on inputs without whitespace). -/
def b64DecodeGroups : List Char → Option (List Nat)
  | [] => some []
  | a :: b :: c :: d :: rest =>
    match b64CharVal a, b64CharVal b with
    | some va, some vb =>
      if c = '=' then
        if d = '=' ∧ rest = [] then some [va * 4 + vb / 16] else none
      else
        match b64CharVal c with
        | some vc =>
          if d = '=' then
            if rest = [] then some [va * 4 + vb / 16, vb % 16 * 16 + vc / 4]
            else none
          else
            match b64CharVal d with
            | some vd =>
              match b64DecodeGroups rest with
              | some tail =>
                some ((va * 4 + vb / 16) :: (vb % 16 * 16 + vc / 4) :: (vc % 4 * 64 + vd) :: tail)
              | none => none
            | none => none
        | none => none
    | _, _ => none
  | _ => none

/-- `base64.StdEncoding.DecodeString`. -/
def base64StdDecode (s : String) : Option (List Nat) := b64DecodeGroups s.data

/-- `strings.SplitN(s, sep, 2)` on a byte string, reported as the two pieces
when the separator occurs (`SplitN` yields a single piece — not two — when it
does not). -/
def splitOnceByte (sep : Nat) : List Nat → Option (List Nat × List Nat)
  | [] => none
  | b :: rest =>
    if b = sep then some ([], rest)
    else
      match splitOnceByte sep rest with
      | some (l, r) => some (b :: l, r)
      | none => none

/-! ## HTTP frontend (`internal/proxy/http.go`) -/

/-- `HTTPProxy`: the fields consulted by the embedded handlers.  The
middleware handles are passed to the handler functions explicitly because the
embedding threads their updated states through return values. -/
structure HTTPProxy where
  port : Nat
  network : String
deriving Repr, DecidableEq

/-- `parseProxyAuth` (http.go): empty header, non-Basic scheme, undecodable
base64 or a decoded value without a colon all yield `ok = false`. -/
def parseProxyAuthHeader (auth : String) : Option (String × String) :=
  if auth = "" then none
  else if auth.data.take 6 = "Basic ".data then
    match b64DecodeGroups (auth.data.drop 6) with
    | some decoded =>
      match splitOnceByte 58 decoded with
      | some (u, p) => some (bytesToString u, bytesToString p)
      | none => none
    | none => none
  else none

/-- Outcome of the admission pipeline at the top of
`HTTPProxy.handleConnection`, tagged with the HTTP status it writes. -/
inductive HTTPAdmitResult where
  | RejectBreakerOpen
  | RejectBanned
  | RejectRateLimited
  | Admitted
deriving Repr, DecidableEq

/-- HTTP status written by `sendError` for each rejection
(503 / 403 / 429); an admitted connection writes no error. -/
def httpRejectStatus : HTTPAdmitResult → Option Nat
  | HTTPAdmitResult.RejectBreakerOpen => some 503
  | HTTPAdmitResult.RejectBanned => some 403
  | HTTPAdmitResult.RejectRateLimited => some 429
  | HTTPAdmitResult.Admitted => none

/-- The admission prefix of `HTTPProxy.handleConnection` (everything before
`http.ReadRequest`): breaker, then ban, then rate limit, each consulted only
when the previous check passed. -/
def HTTPProxy.handleConnectionAdmission (cbm : CircuitBreakerMiddleware)
    (ibm : IPBanMiddleware) (rlm : RateLimitMiddleware) (clientIP : String)
    (now : Int) : HTTPAdmitResult × RateLimitMiddleware :=
  if cbm.IsOpen now then (HTTPAdmitResult.RejectBreakerOpen, rlm)
  else if ibm.IsBlocked clientIP now then (HTTPAdmitResult.RejectBanned, rlm)
  else
    let ar := rlm.Allow clientIP
    if !ar.1 then (HTTPAdmitResult.RejectRateLimited, ar.2)
    else (HTTPAdmitResult.Admitted, ar.2)

/-- Outcome of the authentication block of `HTTPProxy.handleConnection`. -/
inductive HTTPAuthOutcome where
  | Respond407
  | Proceed (username : String)
deriving Repr, DecidableEq

/-- The authentication block of `HTTPProxy.handleConnection` (lines guarded by
`h.auth.IsEnabled()`): parse `Proxy-Authorization`, authenticate, and feed the
outcome into the ban tracker and the breaker.  `proxyAuthHeader` is
`req.Header.Get("Proxy-Authorization")` (the empty string when absent). -/
def HTTPProxy.handleAuth (auth : AuthMiddleware) (ibm : IPBanMiddleware)
    (cbm : CircuitBreakerMiddleware) (proxyAuthHeader : String)
    (clientIP : String) (now : Int) :
    HTTPAuthOutcome × IPBanMiddleware × CircuitBreakerMiddleware :=
  if !auth.IsEnabled then (HTTPAuthOutcome.Proceed "", ibm, cbm)
  else
    let parsed :=
      match parseProxyAuthHeader proxyAuthHeader with
      | some (u, p) => (u, p, true)
      | none => ("", "", false)
    let username := parsed.1
    let password := parsed.2.1
    let ok := parsed.2.2
    if !(ok && auth.Authenticate username password) then
      (HTTPAuthOutcome.Respond407, ibm.RecordAuthFailure clientIP now,
        cbm.RecordAuthFailure now)
    else
      (HTTPAuthOutcome.Proceed username, ibm.RecordAuthSuccess clientIP,
        cbm.RecordAuthSuccess now)

/-- The `(network, address)` pair `handleConnect` passes to
`net.DialTimeout`. -/
def HTTPProxy.connectDialArgs (h : HTTPProxy) (reqHost : String) : String × String :=
  (h.network, reqHost)

/-- The `(network, address)` pair `handleHTTP` passes to `net.DialTimeout`
(after defaulting the port to 80 via `net.JoinHostPort`). -/
def HTTPProxy.forwardDialArgs (h : HTTPProxy) (reqHost : String) : String × String :=
  let targetAddr := if reqHost.data.contains ':' then reqHost else joinHostPort reqHost "80"
  (h.network, targetAddr)

/-! ## SOCKS5 frontend (`internal/proxy/socks5.go`) -/

/-- `SOCKS5Proxy`: note the struct has no network-family field; its listener
and outbound dials both pass the literal `"tcp"`. -/
structure SOCKS5Proxy where
  port : Nat
deriving Repr, DecidableEq

/-- The network string `handleRequest` passes to `net.DialTimeout`
(socks5.go line 325): the literal `"tcp"`. -/
def SOCKS5Proxy.dialNetwork (_s : SOCKS5Proxy) : String := "tcp"

/-- Outcome of the admission pipeline at the top of
`SOCKS5Proxy.handleConnection`. -/
inductive SOCKS5AdmitResult where
  | RejectBreakerOpen
  | RejectBanned
  | RejectRateLimited
  | Admitted
deriving Repr, DecidableEq

/-- The admission prefix of `SOCKS5Proxy.handleConnection`: same fixed order
as HTTP; every rejection branch simply returns, so the bytes written to the
client before the handshake are `[]` in all three rejection cases. -/
def SOCKS5Proxy.handleConnectionAdmission (cbm : CircuitBreakerMiddleware)
    (ibm : IPBanMiddleware) (rlm : RateLimitMiddleware) (clientIP : String)
    (now : Int) : SOCKS5AdmitResult × RateLimitMiddleware × List Nat :=
  if cbm.IsOpen now then (SOCKS5AdmitResult.RejectBreakerOpen, rlm, [])
  else if ibm.IsBlocked clientIP now then (SOCKS5AdmitResult.RejectBanned, rlm, [])
  else
    let ar := rlm.Allow clientIP
    if !ar.1 then (SOCKS5AdmitResult.RejectRateLimited, ar.2, [])
    else (SOCKS5AdmitResult.Admitted, ar.2, [])

/-- `net.IPv4(a,b,c,d).String()`: the dotted-quad form. -/
def ipv4String (a b c d : Nat) : String :=
  toString a ++ "." ++ toString b ++ "." ++ toString c ++ "." ++ toString d

/-- Length of the zero-group run starting at the head. -/
def zeroRunLen : List Nat → Nat
  | [] => 0
  | g :: rest => if g = 0 then zeroRunLen rest + 1 else 0

/-- Longest (leftmost on ties) run of zero 16-bit groups, as in
`net.IP.String`; runs of a single group are not compressed, signalled by the
sentinel start 8. -/
def bestZeroRunAux : List Nat → Nat → Nat × Nat → Nat × Nat
  | [], _, best => best
  | g :: rest, i, best =>
    let r := zeroRunLen (g :: rest)
    if r > best.2 then bestZeroRunAux rest (i + 1) (i, r)
    else bestZeroRunAux rest (i + 1) best

/-- Longest compressible zero run of an 8-group address. -/
def bestZeroRun (gs : List Nat) : Nat × Nat :=
  let best := bestZeroRunAux gs 0 (0, 0)
  if best.2 ≥ 2 then best else (8, 0)

/-- Lowercase hex with no leading zeros (`appendHex`). -/
def hexString (n : Nat) : String := String.mk (Nat.toDigits 16 n)

/-- RFC 5952 textual form of 8 16-bit groups, with `::` over the longest zero
run, as produced by `net.IP.String`. -/
def ipv6GroupsString (gs : List Nat) : String :=
  let best := bestZeroRun gs
  let e0 := best.1
  let e1 := best.1 + best.2
  (List.range 8).foldl
    (fun acc i =>
      if e0 ≤ i ∧ i < e1 then (if i = e0 then acc ++ "::" else acc)
      else
        let sep := if 0 < i ∧ i ≠ e1 then ":" else ""
        acc ++ sep ++ hexString (gs.getD i 0))
    ""

/-- `net.IP.String()` on a 16-byte address: IPv4-mapped addresses print as a
dotted quad (`To4`), everything else as compressed hex groups. -/
def ipString16 (bs : List Nat) : String :=
  match bs with
  | [b0, b1, b2, b3, b4, b5, b6, b7, b8, b9, b10, b11, b12, b13, b14, b15] =>
    if b0 = 0 ∧ b1 = 0 ∧ b2 = 0 ∧ b3 = 0 ∧ b4 = 0 ∧ b5 = 0 ∧ b6 = 0 ∧ b7 = 0 ∧
        b8 = 0 ∧ b9 = 0 ∧ b10 = 255 ∧ b11 = 255 then
      ipv4String b12 b13 b14 b15
    else
      ipv6GroupsString
        [b0 * 256 + b1, b2 * 256 + b3, b4 * 256 + b5, b6 * 256 + b7,
          b8 * 256 + b9, b10 * 256 + b11, b12 * 256 + b13, b14 * 256 + b15]
  | _ => "?"

/-- The address-parsing and target-assembly section of
`SOCKS5Proxy.handleRequest` (after the 4-byte header with command `CONNECT`):
read the address per `atyp`, then the big-endian port, and build the dial
target with `fmt.Sprintf("%s:%d", targetAddr, targetPort)`.  Returns
`(targetAddr, targetPort, dial target)`. -/
def socks5RequestTarget (atyp : Nat) (input : List Nat) :
    Option (String × Nat × String) :=
  let addrStep : Option (String × List Nat) :=
    if atyp = 1 then
      match readFull 4 input with
      | some (addr, rest) =>
        some (ipv4String (addr.getD 0 0) (addr.getD 1 0) (addr.getD 2 0) (addr.getD 3 0), rest)
      | none => none
    else if atyp = 3 then
      match readFull 1 input with
      | some (lenb, rest1) =>
        match readFull (lenb.getD 0 0) rest1 with
        | some (domain, rest2) => some (bytesToString domain, rest2)
        | none => none
      | none => none
    else if atyp = 4 then
      match readFull 16 input with
      | some (addr, rest) => some (ipString16 addr, rest)
      | none => none
    else none
  match addrStep with
  | some (targetAddr, rest) =>
    match readFull 2 rest with
    | some (portBytes, _) =>
      let targetPort := portBytes.getD 0 0 * 256 + portBytes.getD 1 0
      some (targetAddr, targetPort, targetAddr ++ ":" ++ toString targetPort)
    | none => none
  | none => none

/-! ## Operation sequences over the shared managers

Vocabulary for stating the claims: iterated calls, traces of ban-tracker
operations, and the exclusivity check, all executable. -/

/-- A sequence of `RecordFailure ip` calls at the given instants. -/
def runFailures (m : IPBanManager) (ip : String) (ts : List Int) : IPBanManager :=
  ts.foldl (fun acc t => acc.RecordFailure ip t) m

/-- The state of a fresh tracker after `c` recorded failures for `ip`
(no other IP ever touched), while `c` stays below the ban threshold. -/
def failState (k : Nat) (d : Int) (wl : List String) (ip : String) (c : Nat) :
    IPBanManager :=
  { IPBanManager.new k d wl with
    failureCounts := if c = 0 then [] else [(ip, c)] }

/-- One public ban-tracker operation. -/
inductive BanOp where
  | fail (ip : String)
  | success (ip : String)
  | unban (ip : String)
deriving Repr, DecidableEq

/-- Apply one timed operation. -/
def applyBanOp (m : IPBanManager) : BanOp × Int → IPBanManager
  | (BanOp.fail ip, t) => m.RecordFailure ip t
  | (BanOp.success ip, _) => m.RecordSuccess ip
  | (BanOp.unban ip, _) => m.UnbanIP ip

/-- Apply a timed operation sequence. -/
def runBanOps (m : IPBanManager) (ops : List (BanOp × Int)) : IPBanManager :=
  ops.foldl applyBanOp m

/-- The exclusivity check: no IP both carries a failure count and a
non-expired ban (an expired `banned_until` entry counts as absent, matching
`IsBanned`: non-expired means `¬ now > expiry`). -/
def noOverlapB (m : IPBanManager) (now : Int) : Bool :=
  m.failureCounts.all fun p =>
    match lookupA m.bannedIPs p.1 with
    | none => true
    | some e => decide (now > e)

/-- A trace is admissible when its instants never decrease and, as the
admission pipeline guarantees, `record_failure(ip)` is only ever invoked while
`is_banned(ip)` is false. -/
def validBanTrace : IPBanManager → Int → List (BanOp × Int) → Bool
  | _, _, [] => true
  | m, t0, (op, t) :: rest =>
    decide (t0 ≤ t) &&
      (match op with
        | BanOp.fail ip => !(m.IsBanned ip t)
        | _ => true) &&
      validBanTrace (applyBanOp m (op, t)) t rest

/-- The instant of the last operation of a trace (or the start instant). -/
def traceEndTime (t0 : Int) (ops : List (BanOp × Int)) : Int :=
  ops.foldl (fun _ p => p.2) t0

/-- Iterated credential-less HTTP connections: each one runs the
authentication block of `handleConnection` with an empty
`Proxy-Authorization` header at the given instant, threading the ban tracker
and the breaker through. -/
def runNoAuthConnections (auth : AuthMiddleware) (ibm : IPBanMiddleware)
    (cbm : CircuitBreakerMiddleware) (ip : String) (ts : List Int) :
    IPBanMiddleware × CircuitBreakerMiddleware :=
  ts.foldl
    (fun acc t =>
      let r := HTTPProxy.handleAuth auth acc.1 acc.2 "" ip t
      (r.2.1, r.2.2))
    (ibm, cbm)

/-- The per-IP tail of `RateLimitMiddleware.Allow` (what runs once the global
bucket — if any — has granted a token): consult or create the IP's bucket,
consume one token from it, write the bucket back. -/
def perIPConsume (r1 : RateLimitMiddleware) (ip : String) :
    Bool × RateLimitMiddleware :=
  let lim := (r1.getIPLimiter ip).1
  let r2 := (r1.getIPLimiter ip).2
  (lim.allowOne.1, { r2 with perIPLimiters := insertA r2.perIPLimiters ip lim.allowOne.2 })

/-- Well-formed manager state: Go map keys are unique. -/
def WFKeys (m : IPBanManager) : Prop :=
  (m.bannedIPs.map Prod.fst).Nodup ∧ (m.failureCounts.map Prod.fst).Nodup

instance (m : IPBanManager) : Decidable (WFKeys m) := by
  unfold WFKeys
  infer_instance

/-! ## Concrete fixtures used by counterexamples and witnesses -/

/-- The breaker from `TestCircuitBreaker_HalfOpen` (threshold 50 percent,
window 1000 ms, min 5 requests, break 500 ms) after its opening trace:
3 successes then 5 failures, all at instant 0. -/
def testBreakerOpened : CircuitBreaker :=
  runBreakerOps (CircuitBreaker.new 50 1000 5 500 0)
where
  runBreakerOps (cb : CircuitBreaker) : CircuitBreaker :=
    ((((((((cb.RecordSuccess 0).RecordSuccess 0).RecordSuccess 0).RecordFailure
      0).RecordFailure 0).RecordFailure 0).RecordFailure 0).RecordFailure 0)

/-- A breaker sitting in Open with its break window not yet elapsed at
instant 100 (stamp 0, break 500). -/
def openBreakerFix : CircuitBreaker :=
  { state := CircuitBreakerState.StateOpen
    failureThreshold := 50
    windowSize := 1000
    minRequests := 5
    breakDuration := 500
    requests := []
    lastStateChange := 0
    consecutiveSuccesses := 0
    halfOpenMaxRequests := 3 }

/-- Disabled ban middleware over a fresh tracker. -/
def ibmOffFix : IPBanMiddleware := ⟨false, IPBanManager.new 3 300 []⟩

/-- Disabled rate limiter. -/
def rlmOffFix : RateLimitMiddleware := RateLimitMiddleware.new false 0 0

/-- A fresh tracker whose whitelist holds one IP. -/
def wlManagerFix : IPBanManager := IPBanManager.new 2 10 ["192.168.1.1"]

/-- Enabled authentication with one user. -/
def authFix : AuthMiddleware := ⟨true, [("user1", "pass1")]⟩

/-- Enabled ban middleware over a fresh tracker (threshold 3, duration 300). -/
def ibmOnFix : IPBanMiddleware := ⟨true, IPBanManager.new 3 300 []⟩

/-- Disabled breaker middleware. -/
def cbmOffFix : CircuitBreakerMiddleware := ⟨false, CircuitBreaker.new 50 1000 5 500 0⟩

/-- A tracker holding one ban (`expiry 10`, recorded fail count 3, duration
5) and nothing else, as after a ban fired at instant 5. -/
def m7fix : IPBanManager :=
  { bannedIPs := [("10.0.0.1", 10)]
    bannedFailCount := [("10.0.0.1", 3)]
    failureCounts := []
    maxFailures := 3
    banDuration := 5
    whitelist := [] }

/-! # Claim theorems -/

/-- C1 (refuted; code bug): with the breaker driven into Open exactly as in
`TestCircuitBreaker_HalfOpen` (3 successes, 5 failures, threshold 50, min 5,
break 500) and `break_duration` elapsed at instant 600 — so `GetState`
reports HalfOpen, the claim's premise — three consecutive `RecordSuccess`
calls leave the stored state Open and `GetState` still HalfOpen instead of
Closed, and a single `RecordFailure` leaves the last-state-change stamp at 0
instead of refreshing it to 600 (so `IsOpen 600` is even false).
`RecordSuccess`/`RecordFailure` test the stored state field, which only
`Call` — never used by the proxies — sets to HalfOpen; the unit tests
`TestCircuitBreaker_HalfOpen` and `TestCircuitBreaker_HalfOpenFailure` assert
the claimed behaviour and fail on this code. -/
theorem c1_breaker_recovery_code_bug :
    testBreakerOpened.state = CircuitBreakerState.StateOpen ∧
    testBreakerOpened.GetState 600 = CircuitBreakerState.StateHalfOpen ∧
    (((testBreakerOpened.RecordSuccess 600).RecordSuccess 600).RecordSuccess 600).state
        = CircuitBreakerState.StateOpen ∧
    (((testBreakerOpened.RecordSuccess 600).RecordSuccess 600).RecordSuccess 600).GetState 600
        = CircuitBreakerState.StateHalfOpen ∧
    (testBreakerOpened.RecordFailure 600).state = CircuitBreakerState.StateOpen ∧
    (testBreakerOpened.RecordFailure 600).lastStateChange = 0 ∧
    (testBreakerOpened.RecordFailure 600).IsOpen 600 = false := by
  decide

/-- C4 (refuted; code bug): the two HTTP dial sites pass the configured
network family, but the SOCKS5 CONNECT dial passes the literal `"tcp"` (the
`SOCKS5Proxy` struct has no network field), so with `network = "tcp4"` the
SOCKS5 outbound dial is not restricted to IPv4 — contradicting the claim and
the repository's own v1.0.1 CHANGELOG entry. -/
theorem c4_outbound_dial_network_family :
    (∀ (h : HTTPProxy) (host : String),
      (h.connectDialArgs host).1 = h.network ∧ (h.forwardDialArgs host).1 = h.network) ∧
    (∀ s : SOCKS5Proxy, s.dialNetwork = "tcp") ∧
    SOCKS5Proxy.dialNetwork { port := 1080 } ≠ "tcp4" := by
  refine ⟨fun h host => ⟨rfl, rfl⟩, fun s => rfl, by decide⟩

/-- C5 (refuted; code bug): for a SOCKS5 CONNECT with `atyp = 0x04` carrying
the address `2001:db8::1` and port 443, `handleRequest` assembles the dial
target with `fmt.Sprintf("%s:%d", ...)`, producing the unresolvable
`"2001:db8::1:443"` rather than the bracket-wrapped `"[2001:db8::1]:443"`
that a host/port join would give — contradicting the claim and the v1.0.1
CHANGELOG entry about the "too many colons" fix. -/
theorem c5_socks5_ipv6_target_naive_join :
    socks5RequestTarget 4
        ([0x20, 0x01, 0x0d, 0xb8, 0, 0, 0, 0, 0, 0, 0, 0, 0, 0, 0, 1] ++ [1, 187]) =
      some ("2001:db8::1", 443, "2001:db8::1:443") ∧
    "2001:db8::1:443" ≠ joinHostPort "2001:db8::1" "443" := by
  exact ⟨by decide, by decide⟩

/-- C2 (confirmed): on both frontends the admission checks run against the
client IP in the fixed order breaker-open, then ip-banned, then rate-limit;
each later check is consulted only when the earlier ones passed, so a
connection rejected by the breaker or the ban check returns the rate-limiter
state untouched (no token consumed and no bucket created); the HTTP frontend
answers 503 / 403 / 429 respectively while the SOCKS5 frontend returns having
written no bytes. -/
theorem c2_admission_pipeline_order (cbm : CircuitBreakerMiddleware)
    (ibm : IPBanMiddleware) (rlm : RateLimitMiddleware) (ip : String) (now : Int) :
    (cbm.IsOpen now = true →
      HTTPProxy.handleConnectionAdmission cbm ibm rlm ip now =
        (HTTPAdmitResult.RejectBreakerOpen, rlm) ∧
      SOCKS5Proxy.handleConnectionAdmission cbm ibm rlm ip now =
        (SOCKS5AdmitResult.RejectBreakerOpen, rlm, [])) ∧
    (cbm.IsOpen now = false → ibm.IsBlocked ip now = true →
      HTTPProxy.handleConnectionAdmission cbm ibm rlm ip now =
        (HTTPAdmitResult.RejectBanned, rlm) ∧
      SOCKS5Proxy.handleConnectionAdmission cbm ibm rlm ip now =
        (SOCKS5AdmitResult.RejectBanned, rlm, [])) ∧
    (cbm.IsOpen now = false → ibm.IsBlocked ip now = false →
      HTTPProxy.handleConnectionAdmission cbm ibm rlm ip now =
        (if (rlm.Allow ip).1 then HTTPAdmitResult.Admitted
          else HTTPAdmitResult.RejectRateLimited,
          (rlm.Allow ip).2) ∧
      SOCKS5Proxy.handleConnectionAdmission cbm ibm rlm ip now =
        (if (rlm.Allow ip).1 then SOCKS5AdmitResult.Admitted
          else SOCKS5AdmitResult.RejectRateLimited,
          (rlm.Allow ip).2, [])) ∧
    httpRejectStatus HTTPAdmitResult.RejectBreakerOpen = some 503 ∧
    httpRejectStatus HTTPAdmitResult.RejectBanned = some 403 ∧
    httpRejectStatus HTTPAdmitResult.RejectRateLimited = some 429 := by
  refine ⟨fun hcb => ?_, fun hcb hib => ?_, fun hcb hib => ?_, rfl, rfl, rfl⟩
  · exact ⟨by simp [HTTPProxy.handleConnectionAdmission, hcb],
      by simp [SOCKS5Proxy.handleConnectionAdmission, hcb]⟩
  · exact ⟨by simp [HTTPProxy.handleConnectionAdmission, hcb, hib],
      by simp [SOCKS5Proxy.handleConnectionAdmission, hcb, hib]⟩
  · cases h : (rlm.Allow ip).1 <;>
      exact ⟨by simp [HTTPProxy.handleConnectionAdmission, hcb, hib, h],
        by simp [SOCKS5Proxy.handleConnectionAdmission, hcb, hib, h]⟩

/-- Witness for C2: with the breaker open at instant 100, both frontends
reject immediately and the (disabled, but never even consulted) rate limiter
comes back untouched. -/
theorem c2_admission_pipeline_order_witness :
    HTTPProxy.handleConnectionAdmission ⟨true, openBreakerFix⟩ ibmOffFix rlmOffFix
        "10.0.0.9" 100 =
      (HTTPAdmitResult.RejectBreakerOpen, rlmOffFix) ∧
    SOCKS5Proxy.handleConnectionAdmission ⟨true, openBreakerFix⟩ ibmOffFix rlmOffFix
        "10.0.0.9" 100 =
      (SOCKS5AdmitResult.RejectBreakerOpen, rlmOffFix, []) :=
  (c2_admission_pipeline_order ⟨true, openBreakerFix⟩ ibmOffFix rlmOffFix
    "10.0.0.9" 100).1 (by decide)

/-- C9 (confirmed): `allow(ip)` returns true leaving the state untouched when
the limiter is disabled; with a configured global bucket it first consumes
from the global bucket and, on failure, returns false with the per-IP bucket
map unchanged (so the IP's bucket is neither consulted nor created);
otherwise the per-IP bucket — created on first use with rate `perIPLimit`
and burst `perIPBurst`, which the constructor sets to `per_ip_rps` and
`2 × per_ip_rps` — decides by consuming one token. -/
theorem c9_rate_limiter_allow_semantics (r : RateLimitMiddleware) (ip : String) :
    (r.enabled = false → r.Allow ip = (true, r)) ∧
    (r.enabled = true → r.globalLimiter = none → r.Allow ip = perIPConsume r ip) ∧
    (r.enabled = true → ∀ g, r.globalLimiter = some g →
      r.Allow ip =
        (if g.allowOne.1 then
          perIPConsume { r with globalLimiter := some g.allowOne.2 } ip
         else (false, { r with globalLimiter := some g.allowOne.2 }))) ∧
    (lookupA r.perIPLimiters ip = none →
      (r.getIPLimiter ip).1 = Limiter.new r.perIPLimit r.perIPBurst ∧
      (r.getIPLimiter ip).2.perIPLimiters =
        insertA r.perIPLimiters ip (Limiter.new r.perIPLimit r.perIPBurst)) ∧
    (∀ (e : Bool) (g p : Nat), (RateLimitMiddleware.new e g p).perIPLimit = p ∧
      (RateLimitMiddleware.new e g p).perIPBurst = p * 2) := by
  refine ⟨fun hd => ?_, fun he hg => ?_, fun he g hg => ?_, fun hl => ?_,
    fun e g p => ⟨rfl, rfl⟩⟩
  · simp [RateLimitMiddleware.Allow, hd]
  · simp [RateLimitMiddleware.Allow, he, hg, perIPConsume]
  · cases h : g.allowOne.1 <;>
      simp [RateLimitMiddleware.Allow, he, hg, h, perIPConsume]
  · simp [RateLimitMiddleware.getIPLimiter, hl]

/-- Witness for C9: a disabled limiter admits without touching any bucket,
and a fresh enabled limiter creates the per-IP bucket with burst twice the
rate. -/
theorem c9_rate_limiter_allow_semantics_witness :
    rlmOffFix.Allow "10.0.0.1" = (true, rlmOffFix) ∧
    ((RateLimitMiddleware.new true 100 5).getIPLimiter "10.0.0.1").1 =
      Limiter.new 5 10 :=
  ⟨(c9_rate_limiter_allow_semantics rlmOffFix "10.0.0.1").1 (by decide),
    ((c9_rate_limiter_allow_semantics (RateLimitMiddleware.new true 100 5)
      "10.0.0.1").2.2.2.1 (by decide)).1⟩

/-- C8 (confirmed): for a whitelisted IP every `record_failure` call is a
no-op on the whole tracker state (so the IP never enters any of the three
maps as a result of the calls) and `is_banned` is false at every point. -/
theorem c8_whitelist_immunity (m : IPBanManager) (ip : String)
    (hwl : m.whitelist.contains ip = true) (ts : List Int) (now : Int) :
    runFailures m ip ts = m ∧ (runFailures m ip ts).IsBanned ip now = false := by
  have hmem : ip ∈ m.whitelist := by simpa using hwl
  have hrun : runFailures m ip ts = m := by
    induction ts with
    | nil => rfl
    | cons t ts ih =>
      have h1 : m.RecordFailure ip t = m := by
        simp [IPBanManager.RecordFailure, hmem]
      calc runFailures m ip (t :: ts)
          = runFailures (m.RecordFailure ip t) ip ts := rfl
        _ = runFailures m ip ts := by rw [h1]
        _ = m := ih
  refine ⟨hrun, ?_⟩
  rw [hrun]
  simp [IPBanManager.IsBanned, hmem]

/-- Witness for C8: three failures against the whitelisted `192.168.1.1`
leave the fresh tracker untouched and unbanned. -/
theorem c8_whitelist_immunity_witness :
    runFailures wlManagerFix "192.168.1.1" [0, 1, 2] = wlManagerFix ∧
    (runFailures wlManagerFix "192.168.1.1" [0, 1, 2]).IsBanned "192.168.1.1" 5 = false :=
  c8_whitelist_immunity wlManagerFix "192.168.1.1" (by decide) [0, 1, 2] 5

/-- Below the threshold, one more failure just bumps the single counter. -/
theorem recordFailure_failState_lt (k : Nat) (d : Int) (wl : List String)
    (ip : String) (c : Nat) (t : Int) (hwl : wl.contains ip = false)
    (h : c + 1 < k) :
    (failState k d wl ip c).RecordFailure ip t = failState k d wl ip (c + 1) := by
  have hmem : ip ∉ wl := by simpa using hwl
  have hnb : ¬ (c + 1 ≥ k) := by omega
  by_cases hc : c = 0
  · subst hc
    simp [failState, IPBanManager.RecordFailure, IPBanManager.new, hmem, lookupA,
      insertA, hnb]
  · simp [failState, IPBanManager.RecordFailure, IPBanManager.new, hmem, lookupA,
      insertA, hnb, hc]

/-- At the threshold, the failure moves the IP into the ban maps, with the
counter cleared and the expiry stamped `t + ban_duration`. -/
theorem recordFailure_failState_ban (k : Nat) (d : Int) (wl : List String)
    (ip : String) (c : Nat) (t : Int) (hwl : wl.contains ip = false)
    (h : k ≤ c + 1) :
    (failState k d wl ip c).RecordFailure ip t =
      { IPBanManager.new k d wl with
        bannedIPs := [(ip, t + d)]
        bannedFailCount := [(ip, c + 1)] } := by
  have hmem : ip ∉ wl := by simpa using hwl
  by_cases hc : c = 0
  · subst hc
    simp [failState, IPBanManager.RecordFailure, IPBanManager.new, hmem, lookupA,
      insertA, eraseA, h]
  · simp [failState, IPBanManager.RecordFailure, IPBanManager.new, hmem, lookupA,
      insertA, eraseA, h, hc]

/-- Iterating failures from a fresh tracker below the threshold only grows
the single counter. -/
theorem runFailures_failState (k : Nat) (d : Int) (wl : List String)
    (ip : String) (hwl : wl.contains ip = false) :
    ∀ (ts : List Int) (c : Nat), c + ts.length < k →
      runFailures (failState k d wl ip c) ip ts = failState k d wl ip (c + ts.length) := by
  intro ts
  induction ts with
  | nil => intro c h; simp [runFailures]
  | cons t ts ih =>
    intro c h
    have hlen : (t :: ts).length = ts.length + 1 := List.length_cons t ts
    have h1 : c + 1 < k := by rw [hlen] at h; omega
    have h2 : c + 1 + ts.length < k := by rw [hlen] at h; omega
    calc runFailures (failState k d wl ip c) ip (t :: ts)
        = runFailures ((failState k d wl ip c).RecordFailure ip t) ip ts := rfl
      _ = runFailures (failState k d wl ip (c + 1)) ip ts := by
            rw [recordFailure_failState_lt k d wl ip c t hwl h1]
      _ = failState k d wl ip (c + 1 + ts.length) := ih (c + 1) h2
      _ = failState k d wl ip (c + (t :: ts).length) := by
            rw [hlen]
            congr 1
            omega

/-- C3 (confirmed): from a fresh tracker, a non-whitelisted IP is not banned
after `max_failures - 1` consecutive failures, and is banned after exactly
`max_failures` of them whenever the query happens no later than the expiry
stamped by the final failure. -/
theorem c3_ban_threshold (k : Nat) (d : Int) (wl : List String) (ip : String)
    (hk : 1 ≤ k) (hwl : wl.contains ip = false) (ts : List Int) (t now : Int)
    (hlen : ts.length = k - 1) (hnow : now ≤ t + d) :
    (runFailures (IPBanManager.new k d wl) ip ts).IsBanned ip now = false ∧
    (runFailures (IPBanManager.new k d wl) ip (ts ++ [t])).IsBanned ip now = true := by
  have hnew : IPBanManager.new k d wl = failState k d wl ip 0 := by
    simp [failState, IPBanManager.new]
  have hrun : runFailures (IPBanManager.new k d wl) ip ts = failState k d wl ip (k - 1) := by
    rw [hnew]
    have := runFailures_failState k d wl ip hwl ts 0 (by omega)
    simpa [hlen] using this
  have hmem : ip ∉ wl := by simpa using hwl
  constructor
  · rw [hrun]
    simp [failState, IPBanManager.IsBanned, IPBanManager.new, hmem, lookupA]
  · have happ : runFailures (IPBanManager.new k d wl) ip (ts ++ [t]) =
        (runFailures (IPBanManager.new k d wl) ip ts).RecordFailure ip t := by
      simp [runFailures, List.foldl_append]
    rw [happ, hrun, recordFailure_failState_ban k d wl ip (k - 1) t hwl (by omega)]
    simp [IPBanManager.IsBanned, IPBanManager.new, hmem, lookupA]
    omega

/-- Witness for C3: with `max_failures = 3`, two failures leave `10.0.0.1`
unbanned, the third bans it (queried before expiry). -/
theorem c3_ban_threshold_witness :
    (runFailures (IPBanManager.new 3 300 []) "10.0.0.1" [0, 1]).IsBanned
        "10.0.0.1" 100 = false ∧
    (runFailures (IPBanManager.new 3 300 []) "10.0.0.1" ([0, 1] ++ [2])).IsBanned
        "10.0.0.1" 100 = true :=
  c3_ban_threshold 3 300 [] "10.0.0.1" (by decide) (by decide) [0, 1] 2 100
    (by decide) (by decide)

/-- When `parseProxyAuth` reports not-ok, the authentication block takes
exactly the failure path: one recorded failure in each tracker and a 407. -/
theorem handleAuth_parse_none (auth : AuthMiddleware) (ibm : IPBanMiddleware)
    (cbm : CircuitBreakerMiddleware) (h ip : String) (now : Int)
    (he : auth.enabled = true) (hp : parseProxyAuthHeader h = none) :
    HTTPProxy.handleAuth auth ibm cbm h ip now =
      (HTTPAuthOutcome.Respond407, ibm.RecordAuthFailure ip now,
        cbm.RecordAuthFailure now) := by
  simp [HTTPProxy.handleAuth, AuthMiddleware.IsEnabled, he, hp]

/-- Iterated credential-less connections drive the enabled ban middleware
exactly as iterated `RecordFailure` calls drive the bare tracker. -/
theorem runNoAuthConnections_ib (auth : AuthMiddleware) (he : auth.enabled = true)
    (ip : String) :
    ∀ (ts : List Int) (m : IPBanManager) (cbm : CircuitBreakerMiddleware),
      (runNoAuthConnections auth ⟨true, m⟩ cbm ip ts).1 = ⟨true, runFailures m ip ts⟩ := by
  intro ts
  induction ts with
  | nil => intro m cbm; rfl
  | cons t ts ih =>
    intro m cbm
    have hstep : HTTPProxy.handleAuth auth ⟨true, m⟩ cbm "" ip t =
        (HTTPAuthOutcome.Respond407, (⟨true, m.RecordFailure ip t⟩ : IPBanMiddleware),
          cbm.RecordAuthFailure t) := by
      rw [handleAuth_parse_none auth ⟨true, m⟩ cbm "" ip t he (by decide)]
      simp [IPBanMiddleware.RecordAuthFailure]
    simp only [runNoAuthConnections, List.foldl_cons] at ih ⊢
    rw [hstep]
    exact ih (m.RecordFailure ip t) (cbm.RecordAuthFailure t)

/-- C10 (confirmed): with authentication enabled, a request whose
`Proxy-Authorization` header is absent, non-Basic, undecodable base64, or
colon-free decodes to `ok = false` and is handled exactly like wrong
credentials — one failure recorded in the ban tracker and one in the breaker,
and a 407 to the client; consequently a client that keeps connecting with no
credentials reaches `max_failures` credential-less connections and is
banned. -/
theorem c10_absent_or_malformed_credentials :
    (∀ (auth : AuthMiddleware) (ibm : IPBanMiddleware)
        (cbm : CircuitBreakerMiddleware) (h ip : String) (now : Int),
      auth.enabled = true → parseProxyAuthHeader h = none →
        HTTPProxy.handleAuth auth ibm cbm h ip now =
          (HTTPAuthOutcome.Respond407, ibm.RecordAuthFailure ip now,
            cbm.RecordAuthFailure now)) ∧
    (∀ (auth : AuthMiddleware) (ibm : IPBanMiddleware)
        (cbm : CircuitBreakerMiddleware) (h u p ip : String) (now : Int),
      auth.enabled = true → parseProxyAuthHeader h = some (u, p) →
        auth.Authenticate u p = false →
        HTTPProxy.handleAuth auth ibm cbm h ip now =
          (HTTPAuthOutcome.Respond407, ibm.RecordAuthFailure ip now,
            cbm.RecordAuthFailure now)) ∧
    parseProxyAuthHeader "" = none ∧
    parseProxyAuthHeader "Bearer dXNlcjE6cGFzczE=" = none ∧
    parseProxyAuthHeader "Basic !!!!" = none ∧
    parseProxyAuthHeader "Basic dXNlcnBhc3M=" = none ∧
    (∀ (auth : AuthMiddleware) (cbm : CircuitBreakerMiddleware) (k : Nat)
        (d : Int) (wl : List String) (ip : String) (ts : List Int) (t now : Int),
      auth.enabled = true → wl.contains ip = false → 1 ≤ k →
        ts.length = k - 1 → now ≤ t + d →
        ((runNoAuthConnections auth ⟨true, IPBanManager.new k d wl⟩ cbm ip
            (ts ++ [t])).1).IsBlocked ip now = true) := by
  refine ⟨fun auth ibm cbm h ip now he hp => handleAuth_parse_none auth ibm cbm h ip now he hp,
    fun auth ibm cbm h u p ip now he hp ha => ?_, by decide, by decide, by decide, by decide,
    fun auth cbm k d wl ip ts t now he hwl hk hlen hnow => ?_⟩
  · simp [HTTPProxy.handleAuth, AuthMiddleware.IsEnabled, he, hp, ha]
  · rw [runNoAuthConnections_ib auth he ip (ts ++ [t]) (IPBanManager.new k d wl) cbm]
    have hmem : ip ∉ wl := by simpa using hwl
    have hnew : IPBanManager.new k d wl = failState k d wl ip 0 := by
      simp [failState, IPBanManager.new]
    have hrun : runFailures (IPBanManager.new k d wl) ip ts = failState k d wl ip (k - 1) := by
      rw [hnew]
      have := runFailures_failState k d wl ip hwl ts 0 (by omega)
      simpa [hlen] using this
    have happ : runFailures (IPBanManager.new k d wl) ip (ts ++ [t]) =
        (runFailures (IPBanManager.new k d wl) ip ts).RecordFailure ip t := by
      simp [runFailures, List.foldl_append]
    simp only [IPBanMiddleware.IsBlocked, Bool.not_true, Bool.false_eq_true, if_false]
    rw [happ, hrun, recordFailure_failState_ban k d wl ip (k - 1) t hwl (by omega)]
    simp [IPBanManager.IsBanned, IPBanManager.new, hmem, lookupA]
    omega

/-- Witness for C10: a single credential-less connection records the failure
pair and yields 407, and three of them ban the client under
`max_failures = 3`. -/
theorem c10_absent_or_malformed_credentials_witness :
    HTTPProxy.handleAuth authFix ibmOnFix cbmOffFix "" "10.0.0.7" 0 =
      (HTTPAuthOutcome.Respond407, ibmOnFix.RecordAuthFailure "10.0.0.7" 0,
        cbmOffFix.RecordAuthFailure 0) ∧
    ((runNoAuthConnections authFix ⟨true, IPBanManager.new 3 300 []⟩ cbmOffFix
        "10.0.0.7" ([0, 1] ++ [2])).1).IsBlocked "10.0.0.7" 100 = true :=
  ⟨(c10_absent_or_malformed_credentials).1 authFix ibmOnFix cbmOffFix "" "10.0.0.7" 0
      rfl (by decide),
    (c10_absent_or_malformed_credentials).2.2.2.2.2.2 authFix cbmOffFix 3 300 []
      "10.0.0.7" [0, 1] 2 100 rfl (by decide) (by decide) (by decide) (by decide)⟩

/-- Elements of `insertA` come from the list or are the inserted pair. -/
theorem mem_insertA {α : Type} (l : List (String × α)) (k : String) (v : α)
    (p : String × α) (hp : p ∈ insertA l k v) : p ∈ l ∨ p = (k, v) := by
  induction l with
  | nil =>
    simp [insertA] at hp
    simp [hp]
  | cons hd tl ih =>
    obtain ⟨k0, v0⟩ := hd
    by_cases h : k0 = k
    · subst h
      simp [insertA] at hp
      rcases hp with h1 | h1
      · right
        simp [h1]
      · left
        simp [h1]
    · simp [insertA, h] at hp
      rcases hp with h1 | h1
      · left
        simp [h1]
      · rcases ih h1 with h2 | h2
        · left
          simp [h2]
        · right
          exact h2

/-- Elements of `eraseA` come from the list and avoid the erased key. -/
theorem mem_eraseA {α : Type} (l : List (String × α)) (k : String)
    (p : String × α) (hp : p ∈ eraseA l k) : p ∈ l ∧ p.1 ≠ k := by
  induction l with
  | nil => simpa [eraseA] using hp
  | cons hd tl ih =>
    obtain ⟨k0, v0⟩ := hd
    by_cases h : k0 = k
    · subst h
      simp [eraseA] at hp
      have := ih hp
      exact ⟨by simp [this.1], this.2⟩
    · simp [eraseA, h] at hp
      rcases hp with h1 | h1
      · subst h1
        exact ⟨by simp, h⟩
      · have := ih h1
        exact ⟨by simp [this.1], this.2⟩

/-- Propositional reading of the exclusivity check. -/
theorem noOverlapB_iff (m : IPBanManager) (now : Int) :
    noOverlapB m now = true ↔
      ∀ p ∈ m.failureCounts, ∀ e, lookupA m.bannedIPs p.1 = some e → now > e := by
  unfold noOverlapB
  rw [List.all_eq_true]
  constructor
  · intro hb p hp e he
    have := hb p hp
    rw [he] at this
    simpa using this
  · intro hf p hp
    cases hlk : lookupA m.bannedIPs p.1 with
    | none => simp
    | some e => simpa using hf p hp e hlk

/-- An expired entry stays expired as time moves forward. -/
theorem noOverlapB_mono (m : IPBanManager) (t0 t : Int) (h : t0 ≤ t)
    (hb : noOverlapB m t0 = true) : noOverlapB m t = true := by
  rw [noOverlapB_iff] at hb ⊢
  intro p hp e he
  exact lt_of_lt_of_le (hb p hp e he) h

/-- A non-banned verdict pins down the ban entry: absent or expired. -/
theorem isBanned_false_expiry (m : IPBanManager) (ip : String) (t : Int)
    (hnw : ip ∉ m.whitelist) (h : m.IsBanned ip t = false) :
    ∀ e, lookupA m.bannedIPs ip = some e → t > e := by
  intro e he
  by_cases hc : t > e
  · exact hc
  · simp [IPBanManager.IsBanned, hnw, he, hc] at h

/-- One admissible operation preserves the exclusivity check at its own
instant. -/
theorem noOverlap_step (m : IPBanManager) (t0 t : Int) (op : BanOp)
    (hmono : t0 ≤ t) (hinv : noOverlapB m t0 = true)
    (hop : (match op with
            | BanOp.fail ip => !(m.IsBanned ip t)
            | _ => true) = true) :
    noOverlapB (applyBanOp m (op, t)) t = true := by
  have hmt : noOverlapB m t = true := noOverlapB_mono m t0 t hmono hinv
  cases op with
  | success ip =>
    rw [noOverlapB_iff] at hmt ⊢
    intro p hp e he
    simp only [applyBanOp, IPBanManager.RecordSuccess] at hp he
    exact hmt p (mem_eraseA m.failureCounts ip p hp).1 e he
  | unban ip =>
    rw [noOverlapB_iff] at hmt ⊢
    intro p hp e he
    simp only [applyBanOp, IPBanManager.UnbanIP] at hp he
    have h1 := mem_eraseA m.failureCounts ip p hp
    rw [lookupA_eraseA_ne m.bannedIPs ip p.1 (Ne.symm h1.2)] at he
    exact hmt p h1.1 e he
  | fail ip =>
    simp only [Bool.not_eq_true'] at hop
    by_cases hw : ip ∈ m.whitelist
    · have heq : applyBanOp m (BanOp.fail ip, t) = m := by
        simp [applyBanOp, IPBanManager.RecordFailure, hw]
      rw [heq]
      exact hmt
    · have hexp := isBanned_false_expiry m ip t hw hop
      rw [noOverlapB_iff] at hmt
      by_cases hb : (lookupA m.failureCounts ip).getD 0 + 1 ≥ m.maxFailures
      · have happ : applyBanOp m (BanOp.fail ip, t) =
            { m with
              bannedFailCount := insertA m.bannedFailCount ip
                ((lookupA m.failureCounts ip).getD 0 + 1)
              bannedIPs := insertA m.bannedIPs ip (t + m.banDuration)
              failureCounts := eraseA
                (insertA m.failureCounts ip
                  ((lookupA m.failureCounts ip).getD 0 + 1)) ip } := by
          simp [applyBanOp, IPBanManager.RecordFailure, hw, hb]
        rw [happ, noOverlapB_iff]
        intro p hp e he
        have hp2 : p ∈ eraseA
            (insertA m.failureCounts ip ((lookupA m.failureCounts ip).getD 0 + 1)) ip := hp
        have he2 : lookupA (insertA m.bannedIPs ip (t + m.banDuration)) p.1 = some e := he
        have h1 := mem_eraseA _ ip p hp2
        rw [lookupA_insertA_ne m.bannedIPs ip p.1 _ (Ne.symm h1.2)] at he2
        rcases mem_insertA _ ip _ p h1.1 with h2 | h2
        · exact hmt p h2 e he2
        · exact absurd (by simp [h2]) h1.2
      · have happ : applyBanOp m (BanOp.fail ip, t) =
            { m with
              failureCounts := insertA m.failureCounts ip
                ((lookupA m.failureCounts ip).getD 0 + 1) } := by
          simp [applyBanOp, IPBanManager.RecordFailure, hw, hb]
        rw [happ, noOverlapB_iff]
        intro p hp e he
        have hp2 : p ∈ insertA m.failureCounts ip
            ((lookupA m.failureCounts ip).getD 0 + 1) := hp
        have he2 : lookupA m.bannedIPs p.1 = some e := he
        rcases mem_insertA _ ip _ p hp2 with h2 | h2
        · exact hmt p h2 e he2
        · have hp1 : p.1 = ip := by simp [h2]
          rw [hp1] at he2
          exact hexp e he2

/-- The exclusivity check holds along every admissible trace. -/
theorem noOverlap_trace :
    ∀ (ops : List (BanOp × Int)) (m : IPBanManager) (t0 : Int),
      noOverlapB m t0 = true → validBanTrace m t0 ops = true →
      noOverlapB (runBanOps m ops) (traceEndTime t0 ops) = true := by
  intro ops
  induction ops with
  | nil =>
    intro m t0 h _
    simpa [runBanOps, traceEndTime] using h
  | cons p rest ih =>
    intro m t0 h hv
    obtain ⟨op, t⟩ := p
    simp only [validBanTrace, Bool.and_eq_true, decide_eq_true_eq] at hv
    obtain ⟨⟨hmono, hop⟩, hrest⟩ := hv
    exact ih (applyBanOp m (op, t)) t (noOverlap_step m t0 t op hmono h hop) hrest

/-- C6 counterexample: the claim as stated is false.  With `max_failures = 2`
and `ban_duration = 10`, three `record_failure("10.0.0.1")` calls at instant 0
(a sequence of the three permitted operations) leave `10.0.0.1` with failure
count 1 while its ban entry (expiry 10) is not expired at instant 0. -/
theorem c6_exclusivity_counterexample :
    noOverlapB
        (runBanOps (IPBanManager.new 2 10 [])
          [(BanOp.fail "10.0.0.1", 0), (BanOp.fail "10.0.0.1", 0),
            (BanOp.fail "10.0.0.1", 0)])
        0 = false ∧
    lookupA
        (runBanOps (IPBanManager.new 2 10 [])
          [(BanOp.fail "10.0.0.1", 0), (BanOp.fail "10.0.0.1", 0),
            (BanOp.fail "10.0.0.1", 0)]).failureCounts "10.0.0.1" = some 1 ∧
    lookupA
        (runBanOps (IPBanManager.new 2 10 [])
          [(BanOp.fail "10.0.0.1", 0), (BanOp.fail "10.0.0.1", 0),
            (BanOp.fail "10.0.0.1", 0)]).bannedIPs "10.0.0.1" = some 10 := by
  decide

/-- C6 (corrected): the exclusivity invariant does hold for every state
reachable from the empty state by a time-nondecreasing operation sequence in
which `record_failure(ip)` is only invoked while `is_banned(ip)` is false —
which is what the admission pipeline guarantees, since banned IPs are
rejected before authentication can record anything. -/
theorem c6_ban_tracker_exclusivity (k : Nat) (d : Int) (wl : List String)
    (t0 : Int) (ops : List (BanOp × Int))
    (hv : validBanTrace (IPBanManager.new k d wl) t0 ops = true) :
    noOverlapB (runBanOps (IPBanManager.new k d wl) ops) (traceEndTime t0 ops) = true :=
  noOverlap_trace ops (IPBanManager.new k d wl) t0 rfl hv

/-- Witness for C6: an admissible trace — two failures ban the IP, a later
success touches only the (empty) counter — ends exclusivity-clean. -/
theorem c6_ban_tracker_exclusivity_witness :
    noOverlapB
        (runBanOps (IPBanManager.new 2 10 [])
          [(BanOp.fail "10.0.0.1", 0), (BanOp.fail "10.0.0.1", 1),
            (BanOp.success "10.0.0.1", 2)])
        (traceEndTime 0
          [(BanOp.fail "10.0.0.1", 0), (BanOp.fail "10.0.0.1", 1),
            (BanOp.success "10.0.0.1", 2)]) = true :=
  c6_ban_tracker_exclusivity 2 10 [] 0
    [(BanOp.fail "10.0.0.1", 0), (BanOp.fail "10.0.0.1", 1),
      (BanOp.success "10.0.0.1", 2)] (by decide)

/-- C7 counterexample: the claim as stated is false.  Save the tracker at
instant 6 (its one ban, expiry 10, is alive) and load at instant 20: the
expired record is restored as a failure count, so the loaded
`failure_counts` has an entry for `10.0.0.1` while the original's
positive-count entries are empty; `list_banned` agrees (both empty at 20)
and the expired entry is indeed not restored as a ban. -/
theorem c7_round_trip_counterexample :
    lookupA (m7fix.roundTrip 6 20).failureCounts "10.0.0.1" ≠
      lookupA m7fix.failureCounts "10.0.0.1" ∧
    lookupA (m7fix.roundTrip 6 20).failureCounts "10.0.0.1" = some 3 ∧
    lookupA m7fix.failureCounts "10.0.0.1" = none ∧
    (m7fix.roundTrip 6 20).GetBannedIPs 20 = [] ∧
    m7fix.GetBannedIPs 20 = [] ∧
    lookupA (m7fix.roundTrip 6 20).bannedIPs "10.0.0.1" = none := by
  decide

/-- A successful lookup exhibits its pair in the list. -/
theorem mem_of_lookupA {α : Type} (l : List (String × α)) (k : String) (v : α)
    (h : lookupA l k = some v) : (k, v) ∈ l := by
  induction l with
  | nil => simp [lookupA] at h
  | cons hd tl ih =>
    obtain ⟨k0, v0⟩ := hd
    by_cases h0 : k0 = k
    · subst h0
      simp [lookupA] at h
      simp [h]
    · simp [lookupA, h0] at h
      simp [ih h]

/-- With unique keys, membership determines the lookup. -/
theorem lookupA_of_mem_nodup {α : Type} (l : List (String × α))
    (hnd : (l.map Prod.fst).Nodup) (p : String × α) (hp : p ∈ l) :
    lookupA l p.1 = some p.2 := by
  induction l with
  | nil => simp at hp
  | cons hd tl ih =>
    obtain ⟨k0, v0⟩ := hd
    simp only [List.map_cons, List.nodup_cons] at hnd
    rcases List.mem_cons.mp hp with h1 | h1
    · subst h1
      simp [lookupA]
    · have hk : k0 ≠ p.1 := by
        intro he
        exact hnd.1 (he ▸ List.mem_map_of_mem Prod.fst h1)
      simp only [lookupA, hk, if_false]
      exact ih hnd.2 h1

/-- Keys of `insertA` come from the list or are the inserted key. -/
theorem keys_insertA_subset {α : Type} (l : List (String × α)) (k : String)
    (v : α) (x : String) (hx : x ∈ (insertA l k v).map Prod.fst) :
    x ∈ l.map Prod.fst ∨ x = k := by
  simp only [List.mem_map] at hx
  obtain ⟨p, hp, hpx⟩ := hx
  rcases mem_insertA l k v p hp with h | h
  · exact Or.inl (hpx ▸ List.mem_map_of_mem Prod.fst h)
  · right
    rw [← hpx, h]

/-- `insertA` preserves key uniqueness. -/
theorem insertA_nodup_keys {α : Type} (l : List (String × α)) (k : String)
    (v : α) (hnd : (l.map Prod.fst).Nodup) :
    ((insertA l k v).map Prod.fst).Nodup := by
  induction l with
  | nil => simp [insertA]
  | cons hd tl ih =>
    obtain ⟨k0, v0⟩ := hd
    simp only [List.map_cons, List.nodup_cons] at hnd
    by_cases h0 : k0 = k
    · subst h0
      simpa [insertA, List.nodup_cons] using hnd
    · simp only [insertA, h0, if_false, List.map_cons, List.nodup_cons]
      refine ⟨?_, ih hnd.2⟩
      intro hx
      rcases keys_insertA_subset tl k v k0 hx with h | h
      · exact hnd.1 h
      · exact h0 h

/-- The ban segment of `saveToFile` is a filter-and-map over `bannedIPs`. -/
theorem saveRecords_banned_fold (m : IPBanManager) (t1 : Int) :
    ∀ (l : List (String × Int)) (init : List BanRecord),
      l.foldl (fun recs p => if t1 < p.2 then recs ++ [IPBanManager.banRecOf m p] else recs) init =
        init ++ (l.filter (fun p => decide (t1 < p.2))).map (IPBanManager.banRecOf m) := by
  intro l
  induction l with
  | nil => intro init; simp
  | cons p l ih =>
    intro init
    by_cases hp : t1 < p.2
    · simp [List.foldl_cons, List.filter_cons, hp, ih]
    · simp [List.foldl_cons, List.filter_cons, hp, ih]

/-- The pending-failure segment of `saveToFile`: with unique failure-count
keys, the stateful `found` scan reduces to a filter against the records built
before the loop started. -/
theorem saveRecords_fail_fold :
    ∀ (l : List (String × Nat)), (l.map Prod.fst).Nodup →
      ∀ (recs : List BanRecord),
        l.foldl
          (fun recs p =>
            let found := recs.any (fun r => r.ip = p.1)
            if !found ∧ p.2 > 0 then recs ++ [IPBanManager.failRecOf p] else recs)
          recs =
        recs ++ (l.filter
          (fun p => !(recs.any (fun r => r.ip = p.1)) && decide (0 < p.2))).map
          IPBanManager.failRecOf := by
  intro l
  induction l with
  | nil => intro _ recs; simp
  | cons p l ih =>
    intro hnd recs
    simp only [List.map_cons, List.nodup_cons] at hnd
    have hcong : ∀ (r1 r2 : List BanRecord),
        (∀ q ∈ l, (r1.any (fun r => r.ip = q.1)) = (r2.any (fun r => r.ip = q.1))) →
        (l.filter (fun q => !(r1.any (fun r => r.ip = q.1)) && decide (0 < q.2))) =
          (l.filter (fun q => !(r2.any (fun r => r.ip = q.1)) && decide (0 < q.2))) :=
      fun r1 r2 hq => List.filter_congr (fun q hq2 => by rw [hq q hq2])
    by_cases hc : !(recs.any (fun r => r.ip = p.1)) ∧ p.2 > 0
    · have hany : ∀ q ∈ l,
          ((recs ++ [IPBanManager.failRecOf p]).any (fun r => r.ip = q.1)) =
            (recs.any (fun r => r.ip = q.1)) := by
        intro q hq
        have hne : p.1 ≠ q.1 := fun he => hnd.1 (he ▸ List.mem_map_of_mem Prod.fst hq)
        simp [List.any_append, IPBanManager.failRecOf, hne]
      have hcb : (!(recs.any (fun r => r.ip = p.1)) && decide (0 < p.2)) = true := by
        rcases hc with ⟨h1, h2⟩
        simp [h1, h2]
      simp only [List.foldl_cons]
      rw [if_pos hc, ih hnd.2 (recs ++ [IPBanManager.failRecOf p]), hcong _ _ hany]
      simp [List.filter_cons, hcb]
    · have hcb : (!(recs.any (fun r => r.ip = p.1)) && decide (0 < p.2)) = false := by
        by_contra hh
        rw [Bool.not_eq_false, Bool.and_eq_true] at hh
        exact hc ⟨hh.1, by simpa using hh.2⟩
      simp only [List.foldl_cons]
      rw [if_neg hc, ih hnd.2 recs]
      simp [List.filter_cons, hcb]

/-- `saveToFile` in closed form: the alive bans followed by the positive
pending failure counts whose IP carries no alive ban. -/
theorem saveRecords_eq (m : IPBanManager) (t1 : Int)
    (hfc : (m.failureCounts.map Prod.fst).Nodup) :
    m.saveRecords t1 =
      (m.bannedIPs.filter (fun p => decide (t1 < p.2))).map (IPBanManager.banRecOf m) ++
      (m.failureCounts.filter
        (fun p =>
          !(((m.bannedIPs.filter (fun p => decide (t1 < p.2))).map
              (IPBanManager.banRecOf m)).any (fun r => decide (r.ip = p.1))) &&
            decide (0 < p.2))).map IPBanManager.failRecOf := by
  simp only [IPBanManager.saveRecords]
  rw [saveRecords_banned_fold m t1 m.bannedIPs [], List.nil_append,
    saveRecords_fail_fold m.failureCounts hfc]

/-- Loading a record for another IP leaves that IP's lookups alone. -/
theorem loadRecord_lookup_ne (now : Int) (macc : IPBanManager) (r : BanRecord)
    (ip : String) (h : r.ip ≠ ip) :
    lookupA (IPBanManager.loadRecord now macc r).bannedIPs ip =
      lookupA macc.bannedIPs ip ∧
    lookupA (IPBanManager.loadRecord now macc r).failureCounts ip =
      lookupA macc.failureCounts ip := by
  by_cases h1 : r.expiresAt ≠ 0 ∧ now < r.expiresAt
  · by_cases h2 : r.failCount > 0 <;>
      simp [IPBanManager.loadRecord, h1, h2, lookupA_insertA_ne, h]
  · by_cases h2 : r.failCount > 0 <;>
      simp [IPBanManager.loadRecord, h1, h2, lookupA_insertA_ne, h]

/-- Loading records none of which mention an IP leaves its lookups alone. -/
theorem load_foldl_untouched (now : Int) :
    ∀ (records : List BanRecord) (macc : IPBanManager) (ip : String),
      (∀ r ∈ records, r.ip ≠ ip) →
      lookupA (records.foldl (IPBanManager.loadRecord now) macc).bannedIPs ip =
        lookupA macc.bannedIPs ip ∧
      lookupA (records.foldl (IPBanManager.loadRecord now) macc).failureCounts ip =
        lookupA macc.failureCounts ip := by
  intro records
  induction records with
  | nil => intro macc ip _; exact ⟨rfl, rfl⟩
  | cons r rest ih =>
    intro macc ip hne
    have h1 := loadRecord_lookup_ne now macc r ip (hne r (List.mem_cons_self r rest))
    have h2 := ih (IPBanManager.loadRecord now macc r) ip
      (fun q hq => hne q (List.mem_cons_of_mem r hq))
    exact ⟨h2.1.trans h1.1, h2.2.trans h1.2⟩

/-- Per-IP effect of loading an ip-unique record list into a state with no
entry for that IP: the unique record for the IP decides both lookups. -/
theorem load_foldl_lookup (now : Int) :
    ∀ (records : List BanRecord) (macc : IPBanManager) (ip : String),
      (records.map (fun r => r.ip)).Nodup →
      lookupA macc.bannedIPs ip = none →
      lookupA macc.failureCounts ip = none →
      lookupA (records.foldl (IPBanManager.loadRecord now) macc).bannedIPs ip =
        (match records.find? (fun r => decide (r.ip = ip)) with
          | some r =>
            if r.expiresAt ≠ 0 ∧ now < r.expiresAt then some r.expiresAt else none
          | none => none) ∧
      lookupA (records.foldl (IPBanManager.loadRecord now) macc).failureCounts ip =
        (match records.find? (fun r => decide (r.ip = ip)) with
          | some r =>
            if ¬(r.expiresAt ≠ 0 ∧ now < r.expiresAt) ∧ 0 < r.failCount then
              some r.failCount
            else none
          | none => none) := by
  intro records
  induction records with
  | nil =>
    intro macc ip _ hb hf
    simp only [List.foldl_nil, List.find?_nil]
    exact ⟨hb, hf⟩
  | cons r rest ih =>
    intro macc ip hnd hb hf
    simp only [List.map_cons, List.nodup_cons] at hnd
    by_cases hk : r.ip = ip
    · have hrest : ∀ q ∈ rest, q.ip ≠ ip := by
        intro q hq he
        exact hnd.1 (by rw [hk, ← he]; exact List.mem_map_of_mem (fun r => r.ip) hq)
      have hunt := load_foldl_untouched now rest (IPBanManager.loadRecord now macc r) ip hrest
      have hfind : (r :: rest).find? (fun r => decide (r.ip = ip)) = some r :=
        List.find?_cons_of_pos rest (by simp [hk])
      rw [List.foldl_cons]
      rw [hfind]
      refine ⟨hunt.1.trans ?_, hunt.2.trans ?_⟩
      · by_cases h1 : r.expiresAt ≠ 0 ∧ now < r.expiresAt
        · by_cases h2 : r.failCount > 0 <;>
            simp [IPBanManager.loadRecord, h1, h2, hk, lookupA_insertA_self]
        · by_cases h2 : r.failCount > 0 <;>
            simp [IPBanManager.loadRecord, h1, h2, hk, hb, lookupA_insertA_ne]
      · by_cases h1 : r.expiresAt ≠ 0 ∧ now < r.expiresAt
        · by_cases h2 : r.failCount > 0 <;>
            simp [IPBanManager.loadRecord, h1, h2, hk, hf]
        · by_cases h2 : r.failCount > 0 <;>
            simp [IPBanManager.loadRecord, h1, h2, hk, hf, lookupA_insertA_self]
    · have h1 := loadRecord_lookup_ne now macc r ip hk
      have hfind : (r :: rest).find? (fun r => decide (r.ip = ip)) =
          rest.find? (fun r => decide (r.ip = ip)) :=
        List.find?_cons_of_neg rest (by simp [hk])
      rw [List.foldl_cons, hfind]
      exact ih (IPBanManager.loadRecord now macc r) ip hnd.2
        (h1.1.trans hb) (h1.2.trans hf)

/-- Loading preserves key uniqueness of both maps. -/
theorem load_foldl_nodup (now : Int) :
    ∀ (records : List BanRecord) (macc : IPBanManager),
      (macc.bannedIPs.map Prod.fst).Nodup →
      (macc.failureCounts.map Prod.fst).Nodup →
      ((records.foldl (IPBanManager.loadRecord now) macc).bannedIPs.map Prod.fst).Nodup ∧
      ((records.foldl (IPBanManager.loadRecord now) macc).failureCounts.map Prod.fst).Nodup := by
  intro records
  induction records with
  | nil => intro macc h1 h2; exact ⟨h1, h2⟩
  | cons r rest ih =>
    intro macc h1 h2
    have hstep :
        ((IPBanManager.loadRecord now macc r).bannedIPs.map Prod.fst).Nodup ∧
        ((IPBanManager.loadRecord now macc r).failureCounts.map Prod.fst).Nodup := by
      by_cases hc : r.expiresAt ≠ 0 ∧ now < r.expiresAt
      · by_cases hfl : r.failCount > 0 <;>
          simp [IPBanManager.loadRecord, hc, hfl, insertA_nodup_keys, h1, h2]
      · by_cases hfl : r.failCount > 0 <;>
          simp [IPBanManager.loadRecord, hc, hfl, insertA_nodup_keys, h1, h2]
    exact ih (IPBanManager.loadRecord now macc r) hstep.1 hstep.2

/-- `find?` by key over a filtered-and-mapped association list with unique
keys reads off the lookup. -/
theorem find?_filter_map_key {β : Type} (g : String × β → BanRecord)
    (hg : ∀ p, (g p).ip = p.1) (c : String × β → Bool) :
    ∀ (l : List (String × β)) (ip : String), (l.map Prod.fst).Nodup →
      ((l.filter c).map g).find? (fun r => decide (r.ip = ip)) =
        (match lookupA l ip with
          | some v => if c (ip, v) = true then some (g (ip, v)) else none
          | none => none) := by
  intro l
  induction l with
  | nil => intro ip _; simp [lookupA]
  | cons p l ih =>
    intro ip hnd
    obtain ⟨k, v⟩ := p
    simp only [List.map_cons, List.nodup_cons] at hnd
    by_cases hk : k = ip
    · subst hk
      have hnone : ((l.filter c).map g).find? (fun r => decide (r.ip = k)) = none := by
        rw [List.find?_eq_none]
        intro x hx
        simp only [List.mem_map] at hx
        obtain ⟨q, hq, hqx⟩ := hx
        have hq2 : q ∈ l := (List.mem_filter.mp hq).1
        have : q.1 ≠ k := fun he => hnd.1 (he ▸ List.mem_map_of_mem Prod.fst hq2)
        simp [← hqx, hg, this]
      by_cases hc : c (k, v) = true
      · simp [List.filter_cons, hc, lookupA, List.find?_cons_of_pos, hg]
      · simp only [List.filter_cons, hc, if_false, Bool.false_eq_true, lookupA]
        simp [hnone, hc]
    · by_cases hc : c (k, v) = true
      · have : ((((k, v) :: l).filter c).map g).find? (fun r => decide (r.ip = ip)) =
            ((l.filter c).map g).find? (fun r => decide (r.ip = ip)) := by
          simp only [List.filter_cons, hc, if_true, List.map_cons]
          exact List.find?_cons_of_neg _ (by simp [hg, hk])
        rw [this, ih ip hnd.2]
        simp [lookupA, hk]
      · have : (((k, v) :: l).filter c) = l.filter c := by
          simp [List.filter_cons, hc]
        rw [this, ih ip hnd.2]
        simp [lookupA, hk]

/-- Membership in `GetBannedIPs` under unique keys is an alive lookup. -/
theorem mem_getBanned_iff (m : IPBanManager) (now : Int)
    (hnd : (m.bannedIPs.map Prod.fst).Nodup) (ip : String) :
    ip ∈ m.GetBannedIPs now ↔ ∃ e, lookupA m.bannedIPs ip = some e ∧ now < e := by
  unfold IPBanManager.GetBannedIPs
  constructor
  · intro h
    simp only [List.mem_map] at h
    obtain ⟨p, hp, hpip⟩ := h
    have hp2 := List.mem_filter.mp hp
    refine ⟨p.2, ?_, by simpa using hp2.2⟩
    rw [← hpip]
    exact lookupA_of_mem_nodup m.bannedIPs hnd p hp2.1
  · intro h
    obtain ⟨e, he, hlt⟩ := h
    have hmem := mem_of_lookupA m.bannedIPs ip e he
    have hf : (ip, e) ∈ m.bannedIPs.filter (fun p => decide (now < p.2)) := by
      rw [List.mem_filter]
      exact ⟨hmem, by simpa using hlt⟩
    exact List.mem_map_of_mem (fun p => p.1) hf

/-- C7 (corrected): the round trip is exact on every state whose maps obey
the tracker's own exclusivity invariant at save time, provided no saved ban
expires between save and load.  Bans alive at load time survive with their
expiries, bans expired by load time are not restored as bans, and the loaded
failure counts are exactly the original positive ones. -/
theorem c7_persistence_round_trip (m : IPBanManager) (t1 t2 : Int)
    (hwf : WFKeys m) (h0 : 0 ≤ t1) (h12 : t1 ≤ t2)
    (hnoexp : ∀ ip e, lookupA m.bannedIPs ip = some e → t1 < e → t2 < e)
    (hexcl : ∀ ip c, lookupA m.failureCounts ip = some c →
      ∀ e, lookupA m.bannedIPs ip = some e → ¬ t1 < e) :
    (∀ ip, lookupA (m.roundTrip t1 t2).bannedIPs ip =
      (match lookupA m.bannedIPs ip with
        | some e => if t2 < e then some e else none
        | none => none)) ∧
    (∀ ip, ip ∈ (m.roundTrip t1 t2).GetBannedIPs t2 ↔ ip ∈ m.GetBannedIPs t2) ∧
    (∀ ip, lookupA (m.roundTrip t1 t2).failureCounts ip =
      (match lookupA m.failureCounts ip with
        | some c => if 0 < c then some c else none
        | none => none)) := by
  obtain ⟨hwb, hwff⟩ := hwf
  have hsave := saveRecords_eq m t1 hwff
  have hAkeys : ((m.bannedIPs.filter (fun p => decide (t1 < p.2))).map
      (IPBanManager.banRecOf m)).map (fun r => r.ip) =
      (m.bannedIPs.filter (fun p => decide (t1 < p.2))).map Prod.fst := by
    rw [List.map_map]
    rfl
  have hBkeys : ∀ (c : String × Nat → Bool),
      ((m.failureCounts.filter c).map IPBanManager.failRecOf).map (fun r => r.ip) =
        (m.failureCounts.filter c).map Prod.fst := by
    intro c
    rw [List.map_map]
    rfl
  have hanyiff : ∀ ip,
      ((m.bannedIPs.filter (fun p => decide (t1 < p.2))).map
        (IPBanManager.banRecOf m)).any (fun r => decide (r.ip = ip)) = true →
      ∃ e, lookupA m.bannedIPs ip = some e ∧ t1 < e := by
    intro ip hex
    rw [List.any_eq_true] at hex
    obtain ⟨r, hr, hrip⟩ := hex
    simp only [List.mem_map] at hr
    obtain ⟨pb, hpbf, hpbr⟩ := hr
    have hpb := List.mem_filter.mp hpbf
    have hkey : pb.1 = ip := by
      have h2 : (IPBanManager.banRecOf m pb).ip = ip := by
        rw [← hpbr] at hrip
        simpa using hrip
      simpa [IPBanManager.banRecOf] using h2
    have hlkpb : lookupA m.bannedIPs pb.1 = some pb.2 :=
      lookupA_of_mem_nodup m.bannedIPs hwb pb hpb.1
    rw [hkey] at hlkpb
    exact ⟨pb.2, hlkpb, by simpa using hpb.2⟩
  have hnodup : ((m.saveRecords t1).map (fun r => r.ip)).Nodup := by
    rw [hsave, List.map_append, List.nodup_append]
    refine ⟨?_, ?_, ?_⟩
    · rw [hAkeys]
      exact List.Nodup.sublist
        (List.Sublist.map Prod.fst (List.filter_sublist m.bannedIPs)) hwb
    · rw [hBkeys]
      exact List.Nodup.sublist
        (List.Sublist.map Prod.fst (List.filter_sublist m.failureCounts)) hwff
    · intro x hxA hxB
      rw [hAkeys] at hxA
      rw [hBkeys] at hxB
      simp only [List.mem_map] at hxB
      obtain ⟨q, hqf, hqx⟩ := hxB
      have hq := List.mem_filter.mp hqf
      have hanyf : ((m.bannedIPs.filter (fun p => decide (t1 < p.2))).map
          (IPBanManager.banRecOf m)).any (fun r => decide (r.ip = q.1)) = false := by
        have h3 := hq.2
        rw [Bool.and_eq_true] at h3
        simpa using h3.1
      simp only [List.mem_map] at hxA
      obtain ⟨pb, hpbf, hpbx⟩ := hxA
      have hany2 : ((m.bannedIPs.filter (fun p => decide (t1 < p.2))).map
          (IPBanManager.banRecOf m)).any (fun r => decide (r.ip = q.1)) = true := by
        rw [List.any_eq_true]
        refine ⟨IPBanManager.banRecOf m pb,
          List.mem_map_of_mem (IPBanManager.banRecOf m) hpbf, ?_⟩
        have hipeq : (IPBanManager.banRecOf m pb).ip = q.1 := by
          show pb.1 = q.1
          rw [hpbx, hqx]
        simp [hipeq]
      rw [hanyf] at hany2
      exact Bool.false_ne_true hany2
  have main : ∀ ip,
      lookupA (m.roundTrip t1 t2).bannedIPs ip =
        (match lookupA m.bannedIPs ip with
          | some e => if t2 < e then some e else none
          | none => none) ∧
      lookupA (m.roundTrip t1 t2).failureCounts ip =
        (match lookupA m.failureCounts ip with
          | some c => if 0 < c then some c else none
          | none => none) := by
    intro ip
    have hload := load_foldl_lookup t2 (m.saveRecords t1)
      (IPBanManager.new m.maxFailures m.banDuration m.whitelist) ip hnodup rfl rfl
    have hfa := find?_filter_map_key (IPBanManager.banRecOf m) (fun _ => rfl)
      (fun p => decide (t1 < p.2)) m.bannedIPs ip hwb
    have hfb := find?_filter_map_key IPBanManager.failRecOf (fun _ => rfl)
      (fun p =>
        !(((m.bannedIPs.filter (fun p => decide (t1 < p.2))).map
            (IPBanManager.banRecOf m)).any (fun r => decide (r.ip = p.1))) &&
          decide (0 < p.2)) m.failureCounts ip hwff
    rw [hsave, List.find?_append, hfa, hfb] at hload
    have hrt1 : lookupA (m.roundTrip t1 t2).bannedIPs ip =
        lookupA ((m.saveRecords t1).foldl (IPBanManager.loadRecord t2)
          (IPBanManager.new m.maxFailures m.banDuration m.whitelist)).bannedIPs ip := rfl
    have hrt2 : lookupA (m.roundTrip t1 t2).failureCounts ip =
        lookupA ((m.saveRecords t1).foldl (IPBanManager.loadRecord t2)
          (IPBanManager.new m.maxFailures m.banDuration m.whitelist)).failureCounts ip := rfl
    rw [hrt1, hrt2, hsave, hload.1, hload.2]
    cases hlb : lookupA m.bannedIPs ip with
    | some e =>
      by_cases h1e : t1 < e
      · have h2e : t2 < e := hnoexp ip e hlb h1e
        have hne0 : e ≠ 0 := by omega
        have hlfnone : lookupA m.failureCounts ip = none := by
          cases hlf : lookupA m.failureCounts ip with
          | none => rfl
          | some c => exact absurd h1e (hexcl ip c hlf e hlb)
        rw [hlfnone]
        simp [IPBanManager.banRecOf, h1e, h2e, hne0, Option.or]
      · have h2e : ¬ t2 < e := by omega
        have hanyfalse : ((m.bannedIPs.filter (fun p => decide (t1 < p.2))).map
            (IPBanManager.banRecOf m)).any (fun r => decide (r.ip = ip)) = false := by
          rw [← Bool.not_eq_true]
          intro hex
          obtain ⟨e1, he1, ht1⟩ := hanyiff ip hex
          rw [hlb] at he1
          have he2 : e1 = e := by injection he1 with hinj; exact hinj.symm
          omega
        cases hlf : lookupA m.failureCounts ip with
        | none => simp [h1e, h2e, Option.or]
        | some c =>
          by_cases hc : 0 < c
          · simp [h1e, h2e, hanyfalse, hc, IPBanManager.failRecOf, Option.or]
          · simp [h1e, h2e, hanyfalse, hc, Option.or]
    | none =>
      have hanyfalse : ((m.bannedIPs.filter (fun p => decide (t1 < p.2))).map
          (IPBanManager.banRecOf m)).any (fun r => decide (r.ip = ip)) = false := by
        rw [← Bool.not_eq_true]
        intro hex
        obtain ⟨e1, he1, ht1⟩ := hanyiff ip hex
        rw [hlb] at he1
        exact Option.noConfusion he1
      cases hlf : lookupA m.failureCounts ip with
      | none => simp [Option.or]
      | some c =>
        by_cases hc : 0 < c
        · simp [hanyfalse, hc, IPBanManager.failRecOf, Option.or]
        · simp [hanyfalse, hc, Option.or]
  have hloadnodup :=
    load_foldl_nodup t2 (m.saveRecords t1)
      (IPBanManager.new m.maxFailures m.banDuration m.whitelist)
      (by simp [IPBanManager.new]) (by simp [IPBanManager.new])
  refine ⟨fun ip => (main ip).1, fun ip => ?_, fun ip => (main ip).2⟩
  rw [mem_getBanned_iff (m.roundTrip t1 t2) t2 hloadnodup.1 ip,
    mem_getBanned_iff m t2 hwb ip]
  constructor
  · intro h
    obtain ⟨e, he, hlt⟩ := h
    cases hlb : lookupA m.bannedIPs ip with
    | none =>
      have hval : lookupA (m.roundTrip t1 t2).bannedIPs ip = none := by
        rw [(main ip).1, hlb]
      rw [hval] at he
      exact absurd he (by simp)
    | some e0 =>
      have hval : lookupA (m.roundTrip t1 t2).bannedIPs ip =
          if t2 < e0 then some e0 else none := by
        rw [(main ip).1, hlb]
      rw [hval] at he
      by_cases h2 : t2 < e0
      · exact ⟨e0, rfl, h2⟩
      · rw [if_neg h2] at he
        exact absurd he (by simp)
  · intro h
    obtain ⟨e, he, hlt⟩ := h
    refine ⟨e, ?_, hlt⟩
    have hval : lookupA (m.roundTrip t1 t2).bannedIPs ip =
        if t2 < e then some e else none := by
      rw [(main ip).1, he]
    rw [hval, if_pos hlt]

/-- Witness for C7: the one-ban tracker saved at instant 6 and loaded at
instant 8 (before the expiry 10) restores the ban exactly and restores no
failure count. -/
theorem c7_persistence_round_trip_witness :
    lookupA (m7fix.roundTrip 6 8).bannedIPs "10.0.0.1" = some 10 ∧
    ("10.0.0.1" ∈ (m7fix.roundTrip 6 8).GetBannedIPs 8 ↔
      "10.0.0.1" ∈ m7fix.GetBannedIPs 8) ∧
    lookupA (m7fix.roundTrip 6 8).failureCounts "10.0.0.1" = none := by
  have h := c7_persistence_round_trip m7fix 6 8 (by decide) (by decide) (by decide)
    (by
      intro ip e h1 h2
      by_cases hip : ("10.0.0.1" : String) = ip
      · rw [← hip] at h1
        have he10 : e = 10 := by
          have h3 : (some 10 : Option Int) = some e := by
            rw [← h1]
            decide
          injection h3 with h4
          exact h4.symm
        omega
      · simp [m7fix, lookupA, hip] at h1)
    (by
      intro ip c h1 e h2 h3
      simp [m7fix, lookupA] at h1)
  refine ⟨?_, h.2.1 "10.0.0.1", ?_⟩
  · rw [h.1 "10.0.0.1"]
    decide
  · rw [h.2.2 "10.0.0.1"]
    decide

end DuduProxy
